import Mathlib

/-!
# promptql-tui: the interactive session controller

A shallow embedding of `internal/tui/app.go` (the Bubble Tea model of the
terminal application) together with the data it handles from
`internal/config` and `internal/sdk`.

Conventions of the embedding.

* Go `int` is `Int`; a slice is a `List`; a nil-able pointer, map or `error`
  is an `Option`.
* A run-time panic (index out of range, nil dereference) is the result
  `none` of the function in which it happens.
* `tea.Cmd` values are closures in the source; here a command is the
  descriptor `Cmd` of the call expression that built it.
* The widgets of the `bubbles` library and `fmt.Sprintf` are not part of the
  repository: their behaviour is the parameter `Lib`.
-/

namespace PromptQL

/-! ## Data of `internal/config` and `internal/sdk` -/

/-- Persisted configuration (`config.Config`). -/
structure Config where
  pat : String
  apiKey : String
  projectID : String
  ddnURL : String
  timezone : String
  deriving DecidableEq, Repr

/-- The method `Config.HasCredentials`: at least a PAT is configured. -/
def Config.HasCredentials (c : Config) : Bool :=
  c.pat != ""

/-- The fields of `sdk.ClientOptions` that the program sets or that have a
default; the timeout and the injected HTTP client are left out. -/
structure ClientOptions where
  pat : String := ""
  apiKey : String := ""
  projectID : String := ""
  baseURL : String := ""
  apiURL : String := ""
  authURL : String := ""
  controlPlaneURL : String := ""
  deriving DecidableEq, Repr

/-- The data fields of `sdk.Client`. -/
structure Client where
  pat : String
  apiKey : String
  projectID : String
  baseURL : String
  apiURL : String
  authURL : String
  controlPlaneURL : String
  deriving DecidableEq, Repr

/-- The constructor `sdk.NewClient`: empty URLs take their defaults. -/
def NewClient (opts : ClientOptions) : Client :=
  { pat := opts.pat
    apiKey := opts.apiKey
    projectID := opts.projectID
    baseURL := if opts.baseURL = "" then "https://data.promptql.pro.hasura.io" else opts.baseURL
    apiURL := if opts.apiURL = "" then "https://api.promptql.pro.hasura.io" else opts.apiURL
    authURL := if opts.authURL = "" then "https://auth.pro.hasura.io" else opts.authURL
    controlPlaneURL :=
      if opts.controlPlaneURL = "" then "https://data.pro.hasura.io" else opts.controlPlaneURL }

/-- A decoded JSON value, the dynamic content of a Go `interface{}` produced
by `encoding/json`. The program never inspects a number, so its payload is
kept as an integer. -/
inductive JVal where
  | null
  | bool (b : Bool)
  | num (n : Int)
  | str (s : String)
  | arr (xs : List JVal)
  | obj (kvs : List (String × JVal))

/-- A Go `map[string]interface{}` as an association list; the first binding
of a key is the one a lookup finds. -/
abbrev JObj := List (String × JVal)

/-- The map index `m[k]` with its `ok` flag. -/
def mapIndex (m : JObj) (k : String) : Option JVal :=
  m.lookup k

/-- The type assertion `v.(string)` on the result of a map index. -/
def asString : Option JVal → Option String
  | some (JVal.str s) => some s
  | _ => none

/-- The type assertion `v.(map[string]interface{})` on the result of a map
index. -/
def asObject : Option JVal → Option JObj
  | some (JVal.obj kvs) => some kvs
  | _ => none

/-- The type assertion `v.([]interface{})` on the result of a map index. -/
def asArray : Option JVal → Option (List JVal)
  | some (JVal.arr xs) => some xs
  | _ => none

/-- A project visible to the current user (`sdk.UserProject`). -/
structure UserProject where
  buildFQDN : String
  ddnProjectID : String
  name : String
  projectID : String
  deriving DecidableEq, Repr

/-- The result of looking up a project (`sdk.LookupProjectResult`). -/
structure LookupProjectResult where
  buildFQDN : String
  consoleURL : String
  ddnProjectID : String
  name : String
  projectID : String
  deriving DecidableEq, Repr

/-- An event within a thread (`sdk.ThreadEvent`); `eventData` may be nil. -/
structure ThreadEvent where
  threadEventID : Int
  threadID : String
  eventData : Option JObj
  createdAt : String
  userID : String

/-- A conversation thread (`sdk.Thread`). -/
structure Thread where
  threadID : String
  title : String
  createdAt : String
  updatedAt : String
  projectID : String
  buildID : String
  userID : String
  visibility : String
  deriving DecidableEq, Repr

/-- The result of starting a new thread (`sdk.StartThreadResult`). -/
structure StartThreadResult where
  threadID : String
  title : String
  createdAt : String
  updatedAt : String
  threadEvents : List ThreadEvent

/-- The result of sending a message to a thread (`sdk.SendMessageResult`). -/
structure SendMessageResult where
  threadEventID : Int
  eventData : Option JObj
  createdAt : String

/-! ## Messages and commands of the event loop -/

/-- The screens (`view` in the source). -/
inductive View where
  | viewSetup
  | viewProjects
  | viewThreads
  | viewChat
  deriving DecidableEq, Repr

/-- The number of setup fields (`fieldCount`). -/
def fieldCount : Int := 4

/-- A message displayed in the chat view (`ChatMessage`). -/
structure ChatMessage where
  role : String
  content : String
  deriving DecidableEq, Repr

/-- The messages delivered to `Update` (`tea.Msg` and `messages.go`). A key
message is given by the text `msg.String()` returns; `other` stands for any
message type the program does not name. Pointer payloads may be nil. -/
inductive Msg where
  | key (s : String)
  | windowSize (width height : Int)
  | spinnerTick (id tag : Int)
  | err (e : Option String)
  | projectsLoaded (projects : List UserProject)
  | projectSelected (project : UserProject)
  | threadsLoaded (threads : List Thread)
  | threadStarted (result : Option StartThreadResult)
  | messageSent (result : Option SendMessageResult)
  | eventsLoaded (events : List ThreadEvent)
  | queryResult (result : Option JObj)
  | configSaved
  | lookupResult (result : Option LookupProjectResult)
  | other (tag : Nat)

/-- The commands `Update` returns, each named after the expression that builds
it in the source; the closure's receiver is the model returned with it.
`none` is the nil command, `widget` a command made by a library widget. -/
inductive Cmd where
  | none
  | quit
  | spinnerTick
  | widget (tag : Nat)
  | saveConfig
  | loadProjects
  | lookupProjectByName (projectName fqdn : String)
  | loadThreads
  | loadEvents (threadID : String)
  | startThread (message : String)
  | sendThreadMessage (message : String)
  | executeQuery (question : String)
  | batch (cmds : List Cmd)

/-- Behaviour of the imported libraries the controller calls: the text input,
text area and spinner widgets of `bubbles`, and the `%v` formatting of a map by
`fmt.Sprintf`. -/
structure Lib where
  Input : Type
  Area : Type
  Spinner : Type
  inputNew : (placeholder : String) → (charLimit : Nat) → (password : Bool) → Input
  inputSetValue : Input → String → Input
  inputValue : Input → String
  inputFocus : Input → Input
  inputBlur : Input → Input
  inputUpdate : Input → Msg → Input × Cmd
  areaNew : (placeholder : String) → (charLimit : Nat) → (height : Int) → Area
  areaSetWidth : Area → Int → Area
  areaValue : Area → String
  areaFocus : Area → Area
  areaBlur : Area → Area
  areaReset : Area → Area
  areaUpdate : Area → Msg → Area × Cmd
  spinnerNew : Spinner
  spinnerUpdate : Spinner → Msg → Spinner × Cmd
  formatMap : JObj → String

/-- The slice `setupInputs`: it is allocated with `fieldCount` elements in
`New` and never resized, so it is kept as its four elements. -/
structure SetupInputs (α : Type) where
  fieldPAT : α
  fieldAPIKey : α
  fieldDDNURL : α
  fieldTimezone : α

/-- The index expression `setupInputs[i]`; out of range is a panic. -/
def SetupInputs.get {α : Type} (s : SetupInputs α) (i : Int) : Option α :=
  if i = 0 then some s.fieldPAT
  else if i = 1 then some s.fieldAPIKey
  else if i = 2 then some s.fieldDDNURL
  else if i = 3 then some s.fieldTimezone
  else none

/-- The assignment `setupInputs[i] = v` (also the effect of a pointer-receiver
method on the element); out of range is a panic. -/
def SetupInputs.set {α : Type} (s : SetupInputs α) (i : Int) (v : α) :
    Option (SetupInputs α) :=
  if i = 0 then some { s with fieldPAT := v }
  else if i = 1 then some { s with fieldAPIKey := v }
  else if i = 2 then some { s with fieldDDNURL := v }
  else if i = 3 then some { s with fieldTimezone := v }
  else none

/-- The index expression `xs[i]` on a slice; out of range is a panic. -/
def goIndex {α : Type} (xs : List α) (i : Int) : Option α :=
  if 0 ≤ i then xs[i.toNat]? else none

/-- The root model of the TUI (`Model`). The configuration and the selected
project are pointers in the source; here the model holds their current
contents. -/
structure Model (L : Lib) where
  cfg : Config
  client : Option Client
  view : View
  width : Int
  height : Int
  err : Option String
  loading : Bool
  spinner : L.Spinner
  setupInputs : SetupInputs L.Input
  setupCursor : Int
  projects : List UserProject
  projectCursor : Int
  selectedProject : Option UserProject
  buildFQDN : String
  threads : List Thread
  threadCursor : Int
  activeThread : Option Thread
  chatInput : L.Area
  messages : List ChatMessage
  threadID : String

/-! ## Content extraction (`app.go`, helpers) -/

/-- The predicate `unicode.IsSpace` of the Go standard library. -/
def isSpace (c : Char) : Bool :=
  c = '\t' || c = '\n' || c.val = 0x0B || c.val = 0x0C || c = '\r' || c = ' '
    || c.val = 0x85 || c.val = 0xA0 || c.val = 0x1680
    || (0x2000 ≤ c.val && c.val ≤ 0x200A)
    || c.val = 0x2028 || c.val = 0x2029 || c.val = 0x202F || c.val = 0x205F
    || c.val = 0x3000

/-- The function `strings.TrimSpace` of the Go standard library: leading and
trailing white space removed. -/
def trimSpace (s : String) : String :=
  String.mk ((s.data.dropWhile isSpace).reverse.dropWhile isSpace).reverse

/-- The nested read `m[k].(map[string]interface{})["text"].(string)` that the
extraction helpers repeat. -/
def textOf (m : JObj) (k : String) : Option String :=
  match asObject (mapIndex m k) with
  | some t => asString (mapIndex t "text")
  | none => none

/-- The helper `extractEventContent`. -/
def extractEventContent (evt : ThreadEvent) : String :=
  match evt.eventData with
  | none => ""
  | some d =>
    match textOf d "assistant_message" with
    | some content => content
    | none =>
      match textOf d "user_message" with
      | some content => content
      | none =>
        match asString (mapIndex d "message") with
        | some text => text
        | none =>
          match asString (mapIndex d "text") with
          | some text => text
          | none => ""

/-- The helper `isUserEvent`. -/
def isUserEvent (evt : ThreadEvent) : Bool :=
  match evt.eventData with
  | none => false
  | some d =>
    match mapIndex d "user_message" with
    | some _ => true
    | none =>
      match asString (mapIndex d "role") with
      | some role => role == "user"
      | none => false

/-- The helper `extractSendMessageContent`. -/
def extractSendMessageContent (result : Option SendMessageResult) : String :=
  match result with
  | none => ""
  | some r =>
    match r.eventData with
    | none => ""
    | some d =>
      match textOf d "assistant_message" with
      | some content => content
      | none =>
        match asString (mapIndex d "message") with
        | some text => text
        | none =>
          match asString (mapIndex d "text") with
          | some text => text
          | none => ""

/-- The loop of `extractQueryResult` over `interactions`, from the last entry
to the first; the argument is the slice in reverse order. -/
def scanInteractions : List JVal → Option String
  | [] => none
  | JVal.obj inter :: rest =>
    match asString (mapIndex inter "role") with
    | some role =>
      if role = "assistant" then
        match textOf inter "assistant_message" with
        | some text => some text
        | none => scanInteractions rest
      else scanInteractions rest
    | none => scanInteractions rest
  | _ :: rest => scanInteractions rest

/-- The helper `extractQueryResult`. -/
def extractQueryResult (L : Lib) (result : Option JObj) : String :=
  match result with
  | none => ""
  | some r =>
    let found : Option String :=
      match asArray (mapIndex r "interactions") with
      | some interactions => scanInteractions interactions.reverse
      | none => none
    match found with
    | some text => text
    | none =>
      match asString (mapIndex r "message") with
      | some msg => msg
      | none =>
        match asString (mapIndex r "text") with
        | some text => text
        | none => L.formatMap r

/-! ## The model: `New` and `Update` -/

/-- The constructor `New`. -/
def New (L : Lib) (cfg : Config) : Model L :=
  let pat := L.inputNew "your-personal-access-token" 256 true
  let apiKey := L.inputNew "your-api-key (optional, for direct query)" 256 false
  let ddnURL := L.inputNew "https://your-project.ddn.hasura.app/graphql" 512 false
  let tz := L.inputNew "UTC" 64 false
  let inputs : SetupInputs L.Input :=
    { fieldPAT := if cfg.pat ≠ "" then L.inputSetValue pat cfg.pat else pat
      fieldAPIKey := if cfg.apiKey ≠ "" then L.inputSetValue apiKey cfg.apiKey else apiKey
      fieldDDNURL := if cfg.ddnURL ≠ "" then L.inputSetValue ddnURL cfg.ddnURL else ddnURL
      fieldTimezone := if cfg.timezone ≠ "" then L.inputSetValue tz cfg.timezone else tz }
  let ta := L.areaNew "Ask PromptQL a question..." 4096 3
  let m : Model L :=
    { cfg := cfg
      client := none
      view := View.viewSetup
      width := 0
      height := 0
      err := none
      loading := false
      spinner := L.spinnerNew
      setupInputs := inputs
      setupCursor := 0
      projects := []
      projectCursor := 0
      selectedProject := none
      buildFQDN := ""
      threads := []
      threadCursor := 0
      activeThread := none
      chatInput := ta
      messages := []
      threadID := "" }
  if cfg.HasCredentials then
    { m with
      view := View.viewProjects
      client := some (NewClient { pat := cfg.pat, apiKey := cfg.apiKey, projectID := cfg.projectID })
      loading := true }
  else
    { m with
      view := View.viewSetup
      setupInputs := { m.setupInputs with fieldPAT := L.inputFocus m.setupInputs.fieldPAT } }

/-- The method `Model.saveSetup`. -/
def saveSetup (L : Lib) (m : Model L) : Option (Model L × Cmd) :=
  let pat := L.inputValue m.setupInputs.fieldPAT
  if pat = "" then
    some ({ m with err := some "PAT is required" }, Cmd.none)
  else
    let tz := L.inputValue m.setupInputs.fieldTimezone
    let cfg : Config :=
      { m.cfg with
        pat := pat
        apiKey := L.inputValue m.setupInputs.fieldAPIKey
        ddnURL := L.inputValue m.setupInputs.fieldDDNURL
        timezone := if tz = "" then "UTC" else tz }
    some ({ m with
            cfg := cfg
            client := some (NewClient { pat := cfg.pat, apiKey := cfg.apiKey }) },
          Cmd.saveConfig)

/-- The step of `Model.updateSetup` shared by its two navigation cases: blur the
focused field, move the cursor to `next`, focus the field there. -/
def moveSetupCursor (L : Lib) (m : Model L) (next : Int) : Option (Model L × Cmd) := do
  let cur ← m.setupInputs.get m.setupCursor
  let blurred ← m.setupInputs.set m.setupCursor (L.inputBlur cur)
  let target ← blurred.get next
  let focused ← blurred.set next (L.inputFocus target)
  some ({ m with setupInputs := focused, setupCursor := next }, Cmd.none)

/-- The method `Model.updateSetup`. Go's `%` is the truncated remainder. -/
def updateSetup (L : Lib) (m : Model L) (msg : Msg) : Option (Model L × Cmd) :=
  let toInput : Option (Model L × Cmd) := do
    let cur ← m.setupInputs.get m.setupCursor
    let r := L.inputUpdate cur msg
    let inputs ← m.setupInputs.set m.setupCursor r.1
    some ({ m with setupInputs := inputs }, r.2)
  match msg with
  | Msg.key k =>
    if k = "tab" ∨ k = "down" then
      moveSetupCursor L m ((m.setupCursor + 1).tmod fieldCount)
    else if k = "shift+tab" ∨ k = "up" then
      moveSetupCursor L m ((m.setupCursor - 1 + fieldCount).tmod fieldCount)
    else if k = "enter" then
      saveSetup L m
    else toInput
  | Msg.configSaved =>
    some ({ m with view := View.viewProjects, loading := true, err := none },
          Cmd.batch [Cmd.spinnerTick, Cmd.loadProjects])
  | _ => toInput

/-- The method `Model.selectProject`. -/
def selectProject (L : Lib) (m : Model L) : Option (Model L × Cmd) := do
  let p ← goIndex m.projects m.projectCursor
  some ({ m with selectedProject := some p, loading := true, err := none },
        Cmd.batch [Cmd.spinnerTick, Cmd.lookupProjectByName p.name p.buildFQDN])

/-- The method `Model.updateProjects`. -/
def updateProjects (L : Lib) (m : Model L) (msg : Msg) : Option (Model L × Cmd) :=
  match msg with
  | Msg.projectsLoaded projects =>
    some ({ m with projects := projects, loading := false, err := none }, Cmd.none)
  | Msg.lookupResult result => do
    let r ← result
    some ({ m with
            buildFQDN := r.buildFQDN
            selectedProject :=
              m.selectedProject.map
                (fun p => { p with projectID := r.projectID, buildFQDN := r.buildFQDN })
            cfg := { m.cfg with projectID := r.projectID }
            view := View.viewThreads
            loading := true },
          Cmd.batch [Cmd.spinnerTick, Cmd.loadThreads])
  | Msg.key k =>
    if m.loading then some (m, Cmd.none)
    else if k = "j" ∨ k = "down" then
      if m.projectCursor < (m.projects.length : Int) - 1 then
        some ({ m with projectCursor := m.projectCursor + 1 }, Cmd.none)
      else some (m, Cmd.none)
    else if k = "k" ∨ k = "up" then
      if m.projectCursor > 0 then
        some ({ m with projectCursor := m.projectCursor - 1 }, Cmd.none)
      else some (m, Cmd.none)
    else if k = "enter" then
      if m.projects.length > 0 then selectProject L m
      else some (m, Cmd.none)
    else if k = "r" then
      some ({ m with loading := true, err := none },
            Cmd.batch [Cmd.spinnerTick, Cmd.loadProjects])
    else if k = "s" then
      some ({ m with
              view := View.viewSetup
              setupInputs :=
                { m.setupInputs with fieldPAT := L.inputFocus m.setupInputs.fieldPAT } },
            Cmd.none)
    else some (m, Cmd.none)
  | _ => some (m, Cmd.none)

/-- The method `Model.resumeThread`. -/
def resumeThread (L : Lib) (m : Model L) (t : Thread) : Option (Model L × Cmd) :=
  some ({ m with
          activeThread := some t
          threadID := t.threadID
          view := View.viewChat
          loading := true
          messages := []
          chatInput := L.areaFocus m.chatInput },
        Cmd.batch [Cmd.spinnerTick, Cmd.loadEvents t.threadID])

/-- The value `sdk.Thread` built from a start result: only the identifier and
the title are set. -/
def threadOfStart (r : StartThreadResult) : Thread :=
  { threadID := r.threadID
    title := r.title
    createdAt := ""
    updatedAt := ""
    projectID := ""
    buildID := ""
    userID := ""
    visibility := "" }

/-- The method `Model.updateThreads`. -/
def updateThreads (L : Lib) (m : Model L) (msg : Msg) : Option (Model L × Cmd) :=
  match msg with
  | Msg.threadsLoaded threads =>
    some ({ m with threads := threads, loading := false, err := none }, Cmd.none)
  | Msg.threadStarted result => do
    let r ← result
    some ({ m with
            loading := false
            threadID := r.threadID
            activeThread := some (threadOfStart r)
            view := View.viewChat
            chatInput := L.areaFocus m.chatInput
            messages :=
              r.threadEvents.foldl
                (fun acc evt =>
                  if extractEventContent evt ≠ "" then
                    acc ++ [{ role := "assistant", content := extractEventContent evt }]
                  else acc)
                [] },
          Cmd.none)
  | Msg.key k =>
    if m.loading then some (m, Cmd.none)
    else if k = "j" ∨ k = "down" then
      if m.threadCursor < (m.threads.length : Int) then
        some ({ m with threadCursor := m.threadCursor + 1 }, Cmd.none)
      else some (m, Cmd.none)
    else if k = "k" ∨ k = "up" then
      if m.threadCursor > 0 then
        some ({ m with threadCursor := m.threadCursor - 1 }, Cmd.none)
      else some (m, Cmd.none)
    else if k = "enter" then
      if m.threadCursor = 0 then
        some ({ m with
                view := View.viewChat
                threadID := ""
                activeThread := none
                messages := []
                chatInput := L.areaFocus m.chatInput },
              Cmd.none)
      else do
        let t ← goIndex m.threads (m.threadCursor - 1)
        resumeThread L m t
    else if k = "n" then
      some ({ m with
              view := View.viewChat
              threadID := ""
              activeThread := none
              messages := []
              chatInput := L.areaFocus m.chatInput },
            Cmd.none)
    else if k = "r" then
      some ({ m with loading := true, err := none },
            Cmd.batch [Cmd.spinnerTick, Cmd.loadThreads])
    else some (m, Cmd.none)
  | _ => some (m, Cmd.none)

/-- The method `Model.sendMessage`. -/
def sendMessage (L : Lib) (m : Model L) : Option (Model L × Cmd) :=
  let text := trimSpace (L.areaValue m.chatInput)
  if text = "" then some (m, Cmd.none)
  else
    let m1 : Model L :=
      { m with
        messages := m.messages ++ [{ role := "user", content := text }]
        chatInput := L.areaReset m.chatInput
        loading := true
        err := none }
    if m1.client.isSome ∧ m1.selectedProject.isSome then
      if m1.threadID = "" then
        some (m1, Cmd.batch [Cmd.spinnerTick, Cmd.startThread text])
      else
        some (m1, Cmd.batch [Cmd.spinnerTick, Cmd.sendThreadMessage text])
    else if m1.cfg.apiKey ≠ "" ∧ m1.cfg.ddnURL ≠ "" then
      some (m1, Cmd.batch [Cmd.spinnerTick, Cmd.executeQuery text])
    else
      some ({ m1 with
              err := some "no project selected or API key + DDN URL configured"
              loading := false },
            Cmd.none)

/-- The method `Model.updateChat`. -/
def updateChat (L : Lib) (m : Model L) (msg : Msg) : Option (Model L × Cmd) :=
  let toArea : Option (Model L × Cmd) :=
    let r := L.areaUpdate m.chatInput msg
    some ({ m with chatInput := r.1 }, r.2)
  match msg with
  | Msg.eventsLoaded events =>
    some ({ m with
            loading := false
            err := none
            messages :=
              events.foldl
                (fun acc evt =>
                  if extractEventContent evt ≠ "" then
                    acc ++ [{ role := if isUserEvent evt then "user" else "assistant",
                              content := extractEventContent evt }]
                  else acc)
                m.messages },
          Cmd.none)
  | Msg.threadStarted result => do
    let r ← result
    some ({ m with
            loading := false
            err := none
            threadID := r.threadID
            activeThread := some (threadOfStart r)
            messages :=
              r.threadEvents.foldl
                (fun acc evt =>
                  if extractEventContent evt ≠ "" then
                    acc ++ [{ role := "assistant", content := extractEventContent evt }]
                  else acc)
                m.messages },
          Cmd.none)
  | Msg.messageSent result =>
    some ({ m with
            loading := false
            err := none
            messages :=
              if extractSendMessageContent result ≠ "" then
                m.messages ++ [{ role := "assistant", content := extractSendMessageContent result }]
              else m.messages },
          Cmd.none)
  | Msg.queryResult result =>
    some ({ m with
            loading := false
            err := none
            messages :=
              if extractQueryResult L result ≠ "" then
                m.messages ++ [{ role := "assistant", content := extractQueryResult L result }]
              else m.messages },
          Cmd.none)
  | Msg.key k =>
    if m.loading then some (m, Cmd.none)
    else if k = "ctrl+s" then sendMessage L m
    else toArea
  | _ => toArea

/-- The method `Model.handleEsc`. -/
def handleEsc (L : Lib) (m : Model L) : Option (Model L × Cmd) :=
  match m.view with
  | View.viewChat =>
    some ({ m with view := View.viewThreads, chatInput := L.areaBlur m.chatInput, err := none },
          Cmd.none)
  | View.viewThreads =>
    some ({ m with view := View.viewProjects, err := none }, Cmd.none)
  | View.viewProjects =>
    some ({ m with
            view := View.viewSetup
            setupInputs := { m.setupInputs with fieldPAT := L.inputFocus m.setupInputs.fieldPAT }
            err := none },
          Cmd.none)
  | View.viewSetup => some (m, Cmd.none)

/-- The second switch of `Model.Update`, on the current screen. -/
def updateView (L : Lib) (m : Model L) (msg : Msg) : Option (Model L × Cmd) :=
  match m.view with
  | View.viewSetup => updateSetup L m msg
  | View.viewProjects => updateProjects L m msg
  | View.viewThreads => updateThreads L m msg
  | View.viewChat => updateChat L m msg

/-- The method `Model.Update`: the messages handled on every screen, then the
handler of the current screen. -/
def Update (L : Lib) (m : Model L) (msg : Msg) : Option (Model L × Cmd) :=
  match msg with
  | Msg.key k =>
    if k = "ctrl+c" then some (m, Cmd.quit)
    else if k = "esc" then handleEsc L m
    else updateView L m msg
  | Msg.windowSize width height =>
    some ({ m with
            width := width
            height := height
            chatInput := L.areaSetWidth m.chatInput (width - 4) },
          Cmd.none)
  | Msg.spinnerTick _ _ =>
    let r := L.spinnerUpdate m.spinner msg
    some ({ m with spinner := r.1 }, r.2)
  | Msg.err e =>
    some ({ m with err := e, loading := false }, Cmd.none)
  | _ => updateView L m msg

/-! ## Runs of the event loop -/

/-- The model after the event loop has delivered the messages in order; `none`
when one of the `Update` calls panics. -/
def run (L : Lib) (m : Model L) : List Msg → Option (Model L)
  | [] => some m
  | msg :: rest =>
    match Update L m msg with
    | some r => run L r.1 rest
    | none => none

/-- The states reachable from `New cfg` by `Update` calls whose message is
allowed by `G` in the state it arrives in. -/
inductive ReachableBy (L : Lib) (G : Model L → Msg → Prop) (cfg : Config) : Model L → Prop where
  | init : ReachableBy L G cfg (New L cfg)
  | step {m m1 : Model L} {msg : Msg} {c : Cmd} :
      ReachableBy L G cfg m → G m msg → Update L m msg = some (m1, c) →
      ReachableBy L G cfg m1

/-- The states reachable from `New cfg` by any sequence of `Update` calls. -/
def Reachable (L : Lib) (cfg : Config) (m : Model L) : Prop :=
  ReachableBy L (fun _ _ => True) cfg m

/-- The message `configSaved` arrives only once a client is bound: the command
that emits it is built by `saveSetup` after the client is. -/
def savedAfterBind (L : Lib) (m : Model L) (msg : Msg) : Prop :=
  match msg with
  | Msg.configSaved => m.client.isSome
  | _ => True

/-! ## A small instance of the library interface -/

/-- A widget reduced to its text and its focus flag. -/
structure PlainWidget where
  value : String
  focus : Bool
  deriving DecidableEq, Repr

/-- An instance of `Lib` for evaluating the controller on concrete inputs: a
widget stores the text it is given, and its own `Update` leaves it as it is. -/
def plainLib : Lib :=
  { Input := PlainWidget
    Area := PlainWidget
    Spinner := Nat
    inputNew := fun _ _ _ => { value := "", focus := false }
    inputSetValue := fun w s => { w with value := s }
    inputValue := fun w => w.value
    inputFocus := fun w => { w with focus := true }
    inputBlur := fun w => { w with focus := false }
    inputUpdate := fun w _ => (w, Cmd.none)
    areaNew := fun _ _ _ => { value := "", focus := false }
    areaSetWidth := fun w _ => w
    areaValue := fun w => w.value
    areaFocus := fun w => { w with focus := true }
    areaBlur := fun w => { w with focus := false }
    areaReset := fun w => { w with value := "" }
    areaUpdate := fun w _ => (w, Cmd.none)
    spinnerNew := 0
    spinnerUpdate := fun n _ => (n + 1, Cmd.spinnerTick)
    formatMap := fun _ => "map[]" }

/-- A configuration with only a PAT. -/
def cfgPAT : Config :=
  { pat := "p", apiKey := "", projectID := "", ddnURL := "", timezone := "" }

/-- A project with only a name. -/
def projectNamed (name : String) : UserProject :=
  { buildFQDN := "", ddnProjectID := "", name := name, projectID := "" }

/-- The empty configuration, as loaded when no file exists. -/
def cfgEmpty : Config :=
  { pat := "", apiKey := "", projectID := "", ddnURL := "", timezone := "" }

/-- A list of three projects. -/
def threeProjects : List UserProject :=
  [projectNamed "A", projectNamed "B", projectNamed "C"]

/-- A session on the Projects screen: three projects arrive, the cursor is moved
to the last one, the list is reloaded and comes back with one project. -/
def shorterReload : List Msg :=
  [Msg.projectsLoaded threeProjects, Msg.key "j", Msg.key "j", Msg.key "r",
   Msg.projectsLoaded [projectNamed "A"]]

/-- A thread with only an identifier. -/
def threadWithID (id : String) : Thread :=
  { threadID := id, title := "", createdAt := "", updatedAt := "", projectID := "",
    buildID := "", userID := "", visibility := "" }

/-- The lookup result for project "A". -/
def lookupOfA : LookupProjectResult :=
  { buildFQDN := "", consoleURL := "", ddnProjectID := "", name := "A", projectID := "p-1" }

/-- A session that reaches the Threads screen: two threads arrive, the cursor is
moved to the last one, the list is reloaded and comes back empty. -/
def emptyThreadsReload : List Msg :=
  [Msg.projectsLoaded [projectNamed "A"], Msg.key "enter", Msg.lookupResult (some lookupOfA),
   Msg.threadsLoaded [threadWithID "t-1", threadWithID "t-2"], Msg.key "j", Msg.key "j",
   Msg.key "r", Msg.threadsLoaded []]

/-- A model on the Projects screen, idle, with three projects and the cursor on
the second. -/
def projectsAtOne : Model plainLib :=
  { New plainLib cfgPAT with loading := false, projects := threeProjects, projectCursor := 1 }

/-- A model on the Threads screen, idle, with two threads and the cursor on the
last. -/
def threadsAtTwo : Model plainLib :=
  { New plainLib cfgPAT with
    view := View.viewThreads
    loading := false
    threads := [threadWithID "t-1", threadWithID "t-2"]
    threadCursor := 2 }

/-- A model on the Setup screen with a PAT and an API key typed in. -/
def setupWithPAT : Model plainLib :=
  { New plainLib cfgEmpty with
    setupInputs :=
      { fieldPAT := { value := "PAT123", focus := true }
        fieldAPIKey := { value := "k", focus := false }
        fieldDDNURL := { value := "", focus := false }
        fieldTimezone := { value := "", focus := false } } }

/-- A model on the Chat screen, idle, with a project selected, no thread yet and
a text typed in the chat input. -/
def chatTyped : Model plainLib :=
  { New plainLib cfgPAT with
    view := View.viewChat
    loading := false
    selectedProject := some (projectNamed "A")
    chatInput := { value := " hello ", focus := true } }

/-- A model on the Chat screen, idle, with no message. -/
def chatIdle : Model plainLib :=
  { New plainLib cfgPAT with view := View.viewChat, loading := false }

/-- A model on the Chat screen just after "hello" was sent to a new thread. -/
def helloThenHi : Model plainLib :=
  { New plainLib cfgPAT with
    view := View.viewChat
    loading := true
    selectedProject := some (projectNamed "A")
    messages := [{ role := "user", content := "hello" }] }

/-- A thread event with the given `eventData` and nothing else. -/
def eventOf (d : JObj) : ThreadEvent :=
  { threadEventID := 0, threadID := "", eventData := some d, createdAt := "", userID := "" }

/-- A start result with one assistant event. -/
def startedT9 : StartThreadResult :=
  { threadID := "t-9", title := "T", createdAt := "", updatedAt := "",
    threadEvents := [eventOf [("assistant_message", JVal.obj [("text", JVal.str "hi!")])]] }

/-- An event with an assistant text and the role "user". -/
def assistantAndUserRole : ThreadEvent :=
  eventOf [("assistant_message", JVal.obj [("text", JVal.str "hi")]), ("role", JVal.str "user")]

/-- A session that resumes the first of two threads of project "A". -/
def resumeFirst : List Msg :=
  [Msg.projectsLoaded [projectNamed "A"], Msg.key "enter", Msg.lookupResult (some lookupOfA),
   Msg.threadsLoaded [threadWithID "t-1", threadWithID "t-2"], Msg.key "j", Msg.key "enter"]

/-- The messages that a list of thread events adds to the chat: in event order,
one per event whose extracted content is non-empty, with the role `roleOf`
gives to the event. -/
def eventMessages (roleOf : ThreadEvent → String) (events : List ThreadEvent) :
    List ChatMessage :=
  events.filterMap
    (fun evt =>
      if extractEventContent evt = "" then none
      else some { role := roleOf evt, content := extractEventContent evt })

/-- The role the handler of `eventsLoadedMsg` gives to an event. -/
def roleOfEvent (evt : ThreadEvent) : String :=
  if isUserEvent evt then "user" else "assistant"

/-- The first of the candidate texts that is present; the empty string when
none is. -/
def firstPresent : List (Option String) → String
  | [] => ""
  | some s :: _ => s
  | none :: rest => firstPresent rest

/-- The text of an `interactions` entry that is a map with `role == "assistant"`
and a string `assistant_message.text`; `none` for any other entry. -/
def assistantText : JVal → Option String
  | JVal.obj inter =>
    if asString (mapIndex inter "role") = some "assistant" then textOf inter "assistant_message"
    else none
  | _ => none

/-- A query payload with two assistant interactions around a user one. -/
def twoAnswers : JObj :=
  [("interactions",
    JVal.arr
      [JVal.obj [("role", JVal.str "assistant"),
                 ("assistant_message", JVal.obj [("text", JVal.str "first")])],
       JVal.obj [("role", JVal.str "assistant"),
                 ("assistant_message", JVal.obj [("text", JVal.str "answer")])],
       JVal.obj [("role", JVal.str "user"),
                 ("user_message", JVal.obj [("text", JVal.str "q")])]]),
   ("message", JVal.str "m")]

/-- The invariant that links the active thread and the thread identifier. -/
def activeThreadAgrees {L : Lib} (m : Model L) : Prop :=
  ∀ t : Thread, m.activeThread = some t → m.threadID = t.threadID

/-- The messages a screen handles: those `Update` handles on every screen (key,
resize, spinner tick, error) and those with a case in the handler of the
screen. -/
def recognised (v : View) (msg : Msg) : Bool :=
  match msg with
  | Msg.key _ => true
  | Msg.windowSize _ _ => true
  | Msg.spinnerTick _ _ => true
  | Msg.err _ => true
  | Msg.configSaved => v = View.viewSetup
  | Msg.projectsLoaded _ => v = View.viewProjects
  | Msg.lookupResult _ => v = View.viewProjects
  | Msg.threadsLoaded _ => v = View.viewThreads
  | Msg.threadStarted _ => v = View.viewThreads ∨ v = View.viewChat
  | Msg.eventsLoaded _ => v = View.viewChat
  | Msg.messageSent _ => v = View.viewChat
  | Msg.queryResult _ => v = View.viewChat
  | Msg.projectSelected _ => false
  | Msg.other _ => false

/-- An instance of `Lib` whose text widgets react to a message of their own, as
the text input of the library does to its paste message: the text grows and a
command comes back. -/
def pasteLib : Lib :=
  { plainLib with
    inputUpdate := fun (w : PlainWidget) msg =>
      match msg with
      | Msg.other tag => ({ w with value := w.value ++ "x" }, Cmd.widget tag)
      | _ => (w, Cmd.none)
    areaUpdate := fun (w : PlainWidget) msg =>
      match msg with
      | Msg.other tag => ({ w with value := w.value ++ "x" }, Cmd.widget tag)
      | _ => (w, Cmd.none) }

/-! ## The service client (`internal/sdk`) and the credential store

The JSON library, the HTTP transport and the file system are outside the
repository: they are the parameters `JsonLib`, `Transport` and `FileSys`.
Decoding a JSON text into a Go struct is read as decoding it into a JSON value
and then reading the keys named by the struct tags (matched exactly). -/

/-- The base error value (`sdk.PromptQLError`). -/
structure PromptQLError where
  message : String
  statusCode : Int
  detail : String
  deriving DecidableEq, Repr

/-- The Go type of a typed SDK error: one of the six structs that wrap
`PromptQLError`, or `PromptQLError` itself (`generic`). -/
inductive ErrorKind where
  | authentication
  | forbidden
  | notFound
  | validation
  | rateLimit
  | server
  | generic
  deriving DecidableEq, Repr

/-- A non-nil Go `error` of the SDK: a typed error with its base value, or an
error built by `fmt.Errorf`, given by the text of its format before the cause. -/
inductive SdkError where
  | typed (kind : ErrorKind) (base : PromptQLError)
  | wrapped (text : String)
  deriving DecidableEq, Repr

/-- The function `newErrorForStatus`. -/
def newErrorForStatus (status : Int) (message : String) : SdkError :=
  let base : PromptQLError := { message := message, statusCode := status, detail := message }
  if status = 401 then SdkError.typed ErrorKind.authentication base
  else if status = 403 then SdkError.typed ErrorKind.forbidden base
  else if status = 404 then SdkError.typed ErrorKind.notFound base
  else if status = 422 then SdkError.typed ErrorKind.validation base
  else if status = 429 then SdkError.typed ErrorKind.rateLimit base
  else if status ≥ 500 ∧ status < 600 then SdkError.typed ErrorKind.server base
  else SdkError.typed ErrorKind.generic base

/-- The package `encoding/json` as far as the program calls it: `json.Marshal`
and `json.MarshalIndent` on a JSON value, `json.Unmarshal` of a whole text, and
`Decoder.Decode` of the first value of a stream. A failure carries the text of
the library's error. -/
structure JsonLib where
  marshal : JVal → String
  marshalIndent : JVal → String
  unmarshal : String → Except String JVal
  decodeFirst : String → Except String JVal

/-- An HTTP request as the client builds it. -/
structure HttpRequest where
  method : String
  url : String
  headers : List (String × String)
  body : String
  deriving DecidableEq, Repr

/-- The status code and the body of an HTTP response. -/
structure HttpResponse where
  statusCode : Int
  body : String
  deriving DecidableEq, Repr

/-- The package `net/http` as far as the program calls it: whether
`http.NewRequest` fails on a method and URL, and `c.http.Do`, which returns a
response or fails with a text. -/
structure Transport where
  requestFails : (method url : String) → Bool
  send : HttpRequest → Except String HttpResponse

/-- The result of a client call together with the requests it handed to the
transport, in order. -/
structure Outcome (α : Type) where
  result : Except SdkError α
  sent : List HttpRequest

/-- The message `checkResponse` takes from a response body: the string under
`message`, else the string under `error`, else the raw body. -/
def messageOfBody (J : JsonLib) (body : String) : String :=
  match J.unmarshal body with
  | Except.ok (JVal.obj parsed) =>
    match asString (mapIndex parsed "message") with
    | some msg => msg
    | none =>
      match asString (mapIndex parsed "error") with
      | some msg => msg
      | none => body
  | _ => body

/-- The function `checkResponse`; `none` is the nil error. -/
def checkResponse (J : JsonLib) (resp : HttpResponse) : Option SdkError :=
  if resp.statusCode ≥ 200 ∧ resp.statusCode < 300 then none
  else some (newErrorForStatus resp.statusCode (messageOfBody J resp.body))

/-- The method `Client.authHeader`. -/
def authHeader (c : Client) (authType : String) : Except SdkError String :=
  if authType = "pat" then
    if c.pat = "" then
      Except.error (SdkError.typed ErrorKind.authentication
        { message := "A Personal Access Token (pat) is required for this operation"
          statusCode := 0
          detail := "" })
    else Except.ok ("pat " ++ c.pat)
  else if authType = "bearer" then
    if c.apiKey = "" then
      Except.error (SdkError.typed ErrorKind.authentication
        { message := "An API key is required for this operation"
          statusCode := 0
          detail := "" })
    else Except.ok ("Bearer " ++ c.apiKey)
  else Except.error (SdkError.wrapped ("unknown auth type: " ++ authType))

/-- The JSON form of a `graphqlRequest`: `variables` is omitted when the map is
nil or empty. -/
def graphqlRequestJSON (query : String) (vars : Option JObj) : JVal :=
  match vars with
  | some (v :: vs) => JVal.obj [("query", JVal.str query), ("variables", JVal.obj (v :: vs))]
  | _ => JVal.obj [("query", JVal.str query)]

/-- The struct `graphqlResponse` after decoding: the raw `data` (absent when
the key is) and the messages of `errors`. -/
structure GraphqlResponse where
  data : Option JVal
  errors : List String

/-- A string field of a struct read from a JSON object: an absent key or a null
leaves the zero value, a string sets it, anything else is a type error. -/
def stringField (o : JObj) (k : String) : Option String :=
  match mapIndex o k with
  | none => some ""
  | some JVal.null => some ""
  | some (JVal.str s) => some s
  | some _ => none

/-- One element of `errors` read into its struct. -/
def errorMessageOfJSON : JVal → Option String
  | JVal.obj e => stringField e "message"
  | JVal.null => some ""
  | _ => none

/-- A JSON value read into `graphqlResponse`; `none` is a type error. -/
def graphqlResponseOfJSON : JVal → Option GraphqlResponse
  | JVal.obj o =>
    match mapIndex o "errors" with
    | none => some { data := mapIndex o "data", errors := [] }
    | some JVal.null => some { data := mapIndex o "data", errors := [] }
    | some (JVal.arr xs) =>
      match xs.mapM errorMessageOfJSON with
      | some msgs => some { data := mapIndex o "data", errors := msgs }
      | none => none
    | some _ => none
  | JVal.null => some { data := none, errors := [] }
  | _ => none

/-- A JSON value read into a `map[string]interface{}`: an object is the map, a
null leaves the nil map, anything else is a type error. -/
def mapOfJSON : JVal → Option (Option JObj)
  | JVal.obj o => some (some o)
  | JVal.null => some none
  | _ => none

/-- The method `Client.graphqlTo`. -/
def graphqlTo (J : JsonLib) (T : Transport) (c : Client) (endpoint query : String)
    (vars : Option JObj) (authType : String) : Outcome (Option JObj) :=
  match authHeader c authType with
  | Except.error e => { result := Except.error e, sent := [] }
  | Except.ok auth =>
    let body := J.marshal (graphqlRequestJSON query vars)
    if T.requestFails "POST" endpoint then
      { result := Except.error (SdkError.wrapped "creating request"), sent := [] }
    else
      let req : HttpRequest :=
        { method := "POST"
          url := endpoint
          headers := [("Content-Type", "application/json"), ("Authorization", auth)]
          body := body }
      match T.send req with
      | Except.error _ =>
        { result := Except.error (SdkError.wrapped "executing request"), sent := [req] }
      | Except.ok resp =>
        match checkResponse J resp with
        | some e => { result := Except.error e, sent := [req] }
        | none =>
          match J.decodeFirst resp.body with
          | Except.error _ =>
            { result := Except.error (SdkError.wrapped "decoding response"), sent := [req] }
          | Except.ok v =>
            match graphqlResponseOfJSON v with
            | none =>
              { result := Except.error (SdkError.wrapped "decoding response"), sent := [req] }
            | some gqlResp =>
              match gqlResp.errors with
              | first :: _ =>
                { result := Except.error (SdkError.typed ErrorKind.generic
                    { message := first, statusCode := 0, detail := "" })
                  sent := [req] }
              | [] =>
                match gqlResp.data with
                | none =>
                  { result := Except.error (SdkError.wrapped "unmarshaling data"), sent := [req] }
                | some raw =>
                  match mapOfJSON raw with
                  | none =>
                    { result := Except.error (SdkError.wrapped "unmarshaling data")
                      sent := [req] }
                  | some data => { result := Except.ok data, sent := [req] }

/-- The method `Client.GraphQL`. -/
def GraphQL (J : JsonLib) (T : Transport) (c : Client) (query : String)
    (vars : Option JObj) (authType : String) : Outcome (Option JObj) :=
  graphqlTo J T c (c.baseURL ++ "/graphql") query vars authType

/-- The method `Client.GraphQLControlPlane`. -/
def GraphQLControlPlane (J : JsonLib) (T : Transport) (c : Client) (query : String)
    (vars : Option JObj) (authType : String) : Outcome (Option JObj) :=
  graphqlTo J T c (c.controlPlaneURL ++ "/v1/graphql") query vars authType

/-- The method `Client.PostAPI`; a nil `jsonBody` is marshalled as null. -/
def PostAPI (J : JsonLib) (T : Transport) (c : Client) (path : String)
    (jsonBody : Option JObj) (authType : String) : Outcome (Option JObj) :=
  match authHeader c authType with
  | Except.error e => { result := Except.error e, sent := [] }
  | Except.ok auth =>
    let body := J.marshal (match jsonBody with
      | some o => JVal.obj o
      | none => JVal.null)
    if T.requestFails "POST" (c.apiURL ++ path) then
      { result := Except.error (SdkError.wrapped "creating request"), sent := [] }
    else
      let req : HttpRequest :=
        { method := "POST"
          url := c.apiURL ++ path
          headers := [("Content-Type", "application/json"), ("Authorization", auth)]
          body := body }
      match T.send req with
      | Except.error _ =>
        { result := Except.error (SdkError.wrapped "executing request"), sent := [req] }
      | Except.ok resp =>
        match checkResponse J resp with
        | some e => { result := Except.error e, sent := [req] }
        | none =>
          match J.decodeFirst resp.body with
          | Except.error _ =>
            { result := Except.error (SdkError.wrapped "decoding response"), sent := [req] }
          | Except.ok v =>
            match mapOfJSON v with
            | none =>
              { result := Except.error (SdkError.wrapped "decoding response"), sent := [req] }
            | some result => { result := Except.ok result, sent := [req] }

/-- The function `decodeJSONField`: the field is looked up in the map (a nil
map has no field), and its value is re-encoded and decoded into the target,
here the reader `target` of the target type. -/
def decodeJSONField {α : Type} (data : Option JObj) (field : String)
    (target : JVal → Option α) : Except SdkError α :=
  let notFound : Except SdkError α :=
    Except.error (SdkError.wrapped ("field \"" ++ field ++ "\" not found in response"))
  match data with
  | none => notFound
  | some d =>
    match mapIndex d field with
    | none => notFound
    | some val =>
      match target val with
      | none => Except.error (SdkError.wrapped ("unmarshaling field \"" ++ field ++ "\""))
      | some x => Except.ok x

/-- A JSON value read into `sdk.UserProject`, by its struct tags. -/
def userProjectOfJSON : JVal → Option UserProject
  | JVal.obj o =>
    match stringField o "buildFqdn", stringField o "ddnProjectId", stringField o "name",
      stringField o "projectId" with
    | some buildFqdn, some ddnProjectId, some name, some projectId =>
      some { buildFQDN := buildFqdn, ddnProjectID := ddnProjectId, name := name,
             projectID := projectId }
    | _, _, _, _ => none
  | JVal.null => some { buildFQDN := "", ddnProjectID := "", name := "", projectID := "" }
  | _ => none

/-- A JSON value read into `[]UserProject`. -/
def userProjectsOfJSON : JVal → Option (List UserProject)
  | JVal.arr xs => xs.mapM userProjectOfJSON
  | JVal.null => some []
  | _ => none

/-- The query text of `ListUserProjects`. -/
def listUserProjectsQuery : String :=
  "\n\t\tquery ListUserProjects \x7b\n\t\t\tgetUserProjects \x7b\n\t\t\t\tbuildFqdn" ++
  "\n\t\t\t\tddnProjectId\n\t\t\t\tname\n\t\t\t\tprojectId\n\t\t\t\x7d\n\t\t\x7d"

/-- The method `ProjectsResource.ListUserProjects`. -/
def ListUserProjects (J : JsonLib) (T : Transport) (c : Client) : Outcome (List UserProject) :=
  let out := GraphQL J T c listUserProjectsQuery none "pat"
  match out.result with
  | Except.error e => { result := Except.error e, sent := out.sent }
  | Except.ok data =>
    { result := decodeJSONField data "getUserProjects" userProjectsOfJSON, sent := out.sent }

/-- What `os.ReadFile` returns: the content, the error for a missing file, or
another error. -/
inductive ReadResult where
  | content (data : String)
  | notExist
  | failed (text : String)
  deriving DecidableEq, Repr

/-- The packages `os` and `path/filepath` as far as the credential store calls
them, over a state `Disk` of the file system. -/
structure FileSys where
  Disk : Type
  home : Except String String
  join : List String → String
  mkdirAll : Disk → String → Except String Disk
  writeFile : Disk → String → String → Except String Disk
  readFile : Disk → String → ReadResult

/-- The function `configDir`. -/
def configDir (F : FileSys) : Except String String :=
  match F.home with
  | Except.error _ => Except.error "getting home directory"
  | Except.ok home => Except.ok (F.join [home, ".config", "promptql-tui"])

/-- The function `configPath`. -/
def configPath (F : FileSys) : Except String String :=
  match configDir F with
  | Except.error e => Except.error e
  | Except.ok dir => Except.ok (F.join [dir, "config.json"])

/-- The JSON object `json.MarshalIndent` writes for a `Config`, by its struct
tags: `pat` always, the four `omitempty` fields when they are not empty. -/
def configJSON (c : Config) : JObj :=
  [("pat", JVal.str c.pat)]
    ++ (if c.apiKey = "" then [] else [("api_key", JVal.str c.apiKey)])
    ++ (if c.projectID = "" then [] else [("project_id", JVal.str c.projectID)])
    ++ (if c.ddnURL = "" then [] else [("ddn_url", JVal.str c.ddnURL)])
    ++ (if c.timezone = "" then [] else [("timezone", JVal.str c.timezone)])

/-- A JSON value read into a zero `Config`, by its struct tags. -/
def configOfJSON : JVal → Option Config
  | JVal.obj o =>
    match stringField o "pat", stringField o "api_key", stringField o "project_id",
      stringField o "ddn_url", stringField o "timezone" with
    | some pat, some apiKey, some projectID, some ddnURL, some timezone =>
      some { pat := pat, apiKey := apiKey, projectID := projectID, ddnURL := ddnURL,
             timezone := timezone }
    | _, _, _, _, _ => none
  | JVal.null => some cfgEmpty
  | _ => none

/-- The method `Config.Save`; an error is given by the text before its cause. -/
def Save (J : JsonLib) (F : FileSys) (d : F.Disk) (c : Config) : Except String F.Disk :=
  match configDir F with
  | Except.error e => Except.error e
  | Except.ok dir =>
    match F.mkdirAll d dir with
    | Except.error _ => Except.error "creating config directory"
    | Except.ok d1 =>
      match F.writeFile d1 (F.join [dir, "config.json"])
          (J.marshalIndent (JVal.obj (configJSON c))) with
      | Except.error _ => Except.error "writing config"
      | Except.ok d2 => Except.ok d2

/-- The function `config.Load`. -/
def Load (J : JsonLib) (F : FileSys) (d : F.Disk) : Except String Config :=
  match configPath F with
  | Except.error _ => Except.ok cfgEmpty
  | Except.ok path =>
    match F.readFile d path with
    | ReadResult.notExist => Except.ok cfgEmpty
    | ReadResult.failed _ => Except.error "reading config"
    | ReadResult.content data =>
      match J.unmarshal data with
      | Except.error _ => Except.error "parsing config"
      | Except.ok v =>
        match configOfJSON v with
        | none => Except.error "parsing config"
        | some cfg => Except.ok cfg

/-! ## The window of the Projects view -/

/-- The visible window computed by `viewProjects`. -/
structure Window where
  maxVisible : Int
  scrollOffset : Int
  stop : Int
  deriving DecidableEq, Repr

/-- The window arithmetic of `viewProjects` for a terminal height, a list of
`n` projects and a cursor; `stop` is the variable `end` of the source. -/
def projectsWindow (height : Int) (n : Nat) (cursor : Int) : Window :=
  let maxVisible0 := height - 6
  let maxVisible1 := if maxVisible0 < 3 then 3 else maxVisible0
  let maxVisible := if maxVisible1 > (n : Int) then (n : Int) else maxVisible1
  let scrollOffset := if cursor ≥ maxVisible then cursor - maxVisible + 1 else 0
  let stop := scrollOffset + maxVisible
  if stop > (n : Int) then
    { maxVisible := maxVisible
      scrollOffset := if (n : Int) - maxVisible < 0 then 0 else (n : Int) - maxVisible
      stop := (n : Int) }
  else { maxVisible := maxVisible, scrollOffset := scrollOffset, stop := stop }

/-- The count the line "... N more below" shows; `none` when the line is not
written. -/
def moreBelow (n : Nat) (w : Window) : Option Int :=
  if w.stop < (n : Int) then some ((n : Int) - w.stop) else none

/-- The window `viewProjects` renders for a model; `none` when it returns before
the list (loading, an error, or no project). -/
def viewProjectsWindow {L : Lib} (m : Model L) : Option Window :=
  if m.loading then none
  else if m.err.isSome then none
  else if m.projects.length = 0 then none
  else some (projectsWindow m.height m.projects.length m.projectCursor)

/-! ## Small instances of the external interfaces -/

/-- A JSON library reduced to a table: every value is written as `out`, and a
text is read as the value the table gives it. -/
def tableJson (out : String) (table : List (String × JVal)) : JsonLib :=
  { marshal := fun _ => out
    marshalIndent := fun _ => out
    unmarshal := fun s =>
      match table.lookup s with
      | some v => Except.ok v
      | none => Except.error "invalid character"
    decodeFirst := fun s =>
      match table.lookup s with
      | some v => Except.ok v
      | none => Except.error "invalid character" }

/-- A transport that answers every request with the same response. -/
def fixedTransport (resp : HttpResponse) : Transport :=
  { requestFails := fun _ _ => false
    send := fun _ => Except.ok resp }

/-- A file system that is a list of paths with their contents. -/
def listFileSys : FileSys :=
  { Disk := List (String × String)
    home := Except.ok "/home/u"
    join := fun parts => "/".intercalate parts
    mkdirAll := fun d _ => Except.ok d
    writeFile := fun d path data => Except.ok ((path, data) :: d)
    readFile := fun d path =>
      match d.lookup path with
      | some data => ReadResult.content data
      | none => ReadResult.notExist }

/-- The client of the SDK tests: a PAT and test URLs. -/
def testClient : Client :=
  NewClient
    { pat := "test-pat"
      baseURL := "https://test.example.com"
      apiURL := "https://api.test.example.com"
      authURL := "https://auth.test.example.com"
      controlPlaneURL := "https://cp.test.example.com" }

/-- The data of `TestListUserProjects_Success`: two entries under
`ddn_projects`. -/
def ddnProjectsData : JObj :=
  [("ddn_projects",
    JVal.arr
      [JVal.obj [("id", JVal.str "proj-1"), ("name", JVal.str "Project Alpha"),
                 ("ddn_builds", JVal.arr [JVal.obj [("fqdn", JVal.str "alpha.ddn.hasura.app")]])],
       JVal.obj [("id", JVal.str "proj-2"), ("name", JVal.str "Project Beta"),
                 ("ddn_builds", JVal.arr [])]])]

/-- A configuration with a PAT and a timezone, the other fields empty. -/
def cfgPartial : Config :=
  { pat := "round-trip-pat", apiKey := "", projectID := "", ddnURL := "",
    timezone := "Europe/London" }

/-- The body of an error response with the message "x". -/
def errorBody : String := "\x7b\"message\":\"x\"\x7d"

/-- A JSON library that reads `errorBody`. -/
def errorJson : JsonLib :=
  tableJson "" [(errorBody, JVal.obj [("message", JVal.str "x")])]

/-- The body of a GraphQL response that carries both data and an error. -/
def gqlErrorsBody : String :=
  "\x7b\"data\":\x7b\"getUserProjects\":[]\x7d,\"errors\":[\x7b\"message\":\"boom\"\x7d]\x7d"

/-- A JSON library that reads `gqlErrorsBody`. -/
def gqlErrorsJson : JsonLib :=
  tableJson ""
    [(gqlErrorsBody,
      JVal.obj [("data", JVal.obj [("getUserProjects", JVal.arr [])]),
                ("errors", JVal.arr [JVal.obj [("message", JVal.str "boom")]])])]

/-- The body of the response of `TestListUserProjects_Success`. -/
def ddnProjectsBody : String :=
  "\x7b\"data\":\x7b\"ddn_projects\":[" ++
  "\x7b\"id\":\"proj-1\",\"name\":\"Project Alpha\"," ++
  "\"ddn_builds\":[\x7b\"fqdn\":\"alpha.ddn.hasura.app\"\x7d]\x7d," ++
  "\x7b\"id\":\"proj-2\",\"name\":\"Project Beta\",\"ddn_builds\":[]\x7d]\x7d\x7d"

/-- A JSON library that reads `ddnProjectsBody` as the envelope of
`ddnProjectsData`. -/
def ddnProjectsJson : JsonLib :=
  tableJson "" [(ddnProjectsBody, JVal.obj [("data", JVal.obj ddnProjectsData)])]

/-- A JSON library that writes and reads the document of `cfgPartial`. -/
def cfgPartialJson : JsonLib :=
  tableJson "cfg" [("cfg", JVal.obj (configJSON cfgPartial))]

/-- A model on the Projects screen waiting for the lookup of project "A". -/
def projectsLookingUp : Model plainLib :=
  { projectsAtOne with
    projectCursor := 0
    selectedProject := some (projectNamed "A")
    loading := true }

/-- A model on the Projects screen, idle, with ten projects, a terminal of ten
lines and the cursor on the eighth project. -/
def projectsTall : Model plainLib :=
  { New plainLib cfgPAT with
    loading := false
    height := 10
    projects := List.replicate 10 (projectNamed "P")
    projectCursor := 7 }

/-- A start result that returns the user's question and the answer. -/
def startedQA : StartThreadResult :=
  { threadID := "t-9", title := "T", createdAt := "", updatedAt := "",
    threadEvents :=
      [eventOf [("user_message", JVal.obj [("text", JVal.str "q")])],
       eventOf [("assistant_message", JVal.obj [("text", JVal.str "a")])]] }

/-! ## Properties -/

/-! ### Shared lemmas -/

/-- A key other than the two global ones goes to the handler of the screen. -/
theorem Update_key (L : Lib) (m : Model L) (k : String) (h1 : k ≠ "ctrl+c") (h2 : k ≠ "esc") :
    Update L m (Msg.key k) = updateView L m (Msg.key k) := by
  simp [Update, h1, h2]

/-- The Projects handler leaves the client as it is. -/
theorem updateProjects_client {L : Lib} {m m1 : Model L} {msg : Msg} {c : Cmd}
    (h : updateProjects L m msg = some (m1, c)) : m1.client = m.client := by
  simp only [updateProjects, selectProject] at h
  repeat' split at h
  all_goals
    simp only [Option.bind_eq_bind, Option.bind_eq_some, Option.some.injEq, Prod.mk.injEq] at h
  all_goals first
    | (obtain ⟨rfl, -⟩ := h; rfl)
    | (obtain ⟨_, _, rfl, -⟩ := h; rfl)

/-- The Threads handler leaves the client as it is. -/
theorem updateThreads_client {L : Lib} {m m1 : Model L} {msg : Msg} {c : Cmd}
    (h : updateThreads L m msg = some (m1, c)) : m1.client = m.client := by
  simp only [updateThreads, resumeThread] at h
  repeat' split at h
  all_goals
    simp only [Option.bind_eq_bind, Option.bind_eq_some, Option.some.injEq, Prod.mk.injEq] at h
  all_goals first
    | (obtain ⟨rfl, -⟩ := h; rfl)
    | (obtain ⟨_, _, rfl, -⟩ := h; rfl)

/-- The Chat handler leaves the client as it is. -/
theorem updateChat_client {L : Lib} {m m1 : Model L} {msg : Msg} {c : Cmd}
    (h : updateChat L m msg = some (m1, c)) : m1.client = m.client := by
  simp only [updateChat, sendMessage] at h
  repeat' split at h
  all_goals
    simp only [Option.bind_eq_bind, Option.bind_eq_some, Option.some.injEq, Prod.mk.injEq] at h
  all_goals first
    | (obtain ⟨rfl, -⟩ := h; rfl)
    | (obtain ⟨_, _, rfl, -⟩ := h; rfl)

/-- Going back leaves the client as it is. -/
theorem handleEsc_client {L : Lib} {m m1 : Model L} {c : Cmd}
    (h : handleEsc L m = some (m1, c)) : m1.client = m.client := by
  unfold handleEsc at h
  repeat' split at h
  all_goals
    simp only [Option.some.injEq, Prod.mk.injEq] at h
  all_goals (obtain ⟨rfl, -⟩ := h; rfl)

/-- The Setup handler never unbinds the client. -/
theorem updateSetup_client {L : Lib} {m m1 : Model L} {msg : Msg} {c : Cmd}
    (h : updateSetup L m msg = some (m1, c)) (hc : m.client.isSome) : m1.client.isSome := by
  simp only [updateSetup, moveSetupCursor, saveSetup] at h
  repeat' split at h
  all_goals
    simp only [Option.bind_eq_bind, Option.bind_eq_some, Option.some.injEq, Prod.mk.injEq] at h
  all_goals first
    | (obtain ⟨rfl, -⟩ := h; first | exact hc | rfl)
    | (obtain ⟨_, _, _, _, rfl, -⟩ := h; exact hc)
    | (obtain ⟨_, _, _, _, _, _, _, _, rfl, -⟩ := h; exact hc)

/-- The Setup handler leaves the Setup screen only on `configSaved`. -/
theorem updateSetup_view {L : Lib} {m m1 : Model L} {msg : Msg} {c : Cmd}
    (h : updateSetup L m msg = some (m1, c)) (hv : m.view = View.viewSetup)
    (hm : msg ≠ Msg.configSaved) : m1.view = View.viewSetup := by
  simp only [updateSetup, moveSetupCursor, saveSetup] at h
  repeat' split at h
  all_goals
    simp only [Option.bind_eq_bind, Option.bind_eq_some, Option.some.injEq, Prod.mk.injEq] at h
  all_goals first
    | exact absurd rfl hm
    | (obtain ⟨rfl, -⟩ := h; exact hv)
    | (obtain ⟨_, _, _, _, rfl, -⟩ := h; exact hv)
    | (obtain ⟨_, _, _, _, _, _, _, _, rfl, -⟩ := h; exact hv)

/-- No screen handler unbinds the client. -/
theorem updateView_client {L : Lib} {m m1 : Model L} {msg : Msg} {c : Cmd}
    (h : updateView L m msg = some (m1, c)) (hc : m.client.isSome) : m1.client.isSome := by
  unfold updateView at h
  split at h
  · exact updateSetup_client h hc
  · rw [updateProjects_client h]; exact hc
  · rw [updateThreads_client h]; exact hc
  · rw [updateChat_client h]; exact hc

/-- A bound client stays bound through `Update`. -/
theorem Update_client {L : Lib} {m m1 : Model L} {msg : Msg} {c : Cmd}
    (h : Update L m msg = some (m1, c)) (hc : m.client.isSome) : m1.client.isSome := by
  unfold Update at h
  repeat' split at h
  all_goals first
    | exact updateView_client h hc
    | (rw [handleEsc_client h]; exact hc)
    | (simp only [Option.some.injEq, Prod.mk.injEq] at h; obtain ⟨rfl, -⟩ := h; exact hc)

/-- From the Setup screen, `Update` moves to another screen only on
`configSaved`. -/
theorem Update_stays_on_setup {L : Lib} {m m1 : Model L} {msg : Msg} {c : Cmd}
    (h : Update L m msg = some (m1, c)) (hv : m.view = View.viewSetup)
    (hm : msg ≠ Msg.configSaved) : m1.view = View.viewSetup := by
  have hview : ∀ msg1 : Msg, msg1 ≠ Msg.configSaved →
      updateView L m msg1 = some (m1, c) → m1.view = View.viewSetup := by
    intro msg1 hm1 h1
    unfold updateView at h1
    rw [hv] at h1
    exact updateSetup_view h1 hv hm1
  unfold Update at h
  repeat' split at h
  all_goals first
    | exact hview _ hm h
    | (unfold handleEsc at h; rw [hv] at h
       simp only [Option.some.injEq, Prod.mk.injEq] at h; obtain ⟨rfl, -⟩ := h; exact hv)
    | (simp only [Option.some.injEq, Prod.mk.injEq] at h; obtain ⟨rfl, -⟩ := h; exact hv)

/-- A run that does not panic ends in a reachable state, for a guard that
allows every message. -/
theorem run_reachableBy (L : Lib) (G : Model L → Msg → Prop) (cfg : Config) (msgs : List Msg) :
    ∀ m0 m : Model L, ReachableBy L G cfg m0 → (∀ m1 msg, G m1 msg) →
      run L m0 msgs = some m → ReachableBy L G cfg m := by
  induction msgs with
  | nil =>
    intro m0 m h0 _ hrun
    simp only [run, Option.some.injEq] at hrun
    exact hrun ▸ h0
  | cons msg rest ih =>
    intro m0 m h0 hG hrun
    simp only [run] at hrun
    split at hrun
    · rename_i r hr
      exact ih r.1 m (ReachableBy.step h0 (hG m0 msg) hr) hG hrun
    · exact absurd hrun (by simp)

/-- The end of a run from `New cfg` is reachable. -/
theorem run_reachable (L : Lib) (cfg : Config) (msgs : List Msg) (m : Model L)
    (h : run L (New L cfg) msgs = some m) : Reachable L cfg m :=
  run_reachableBy L _ cfg msgs _ m ReachableBy.init (fun _ _ => trivial) h

/-! ### C1: totality of `Update` -/

/-- C1, evaluated where it fails: after three projects are loaded, the cursor is
moved to the third and a reload returns a single project, the model is on the
Projects screen, idle, with `projectCursor = 2` and one project; the next
"enter" passes the guard `len(m.projects) > 0` and `selectProject` indexes
`m.projects[2]`, which panics. This holds whatever the library widgets do. -/
theorem enter_after_shorter_reload_panics (L : Lib) :
    ∃ m : Model L, run L (New L cfgPAT) shorterReload = some m
      ∧ m.view = View.viewProjects ∧ m.loading = false
      ∧ m.projects.length = 1 ∧ m.projectCursor = 2
      ∧ Update L m (Msg.key "enter") = none :=
  ⟨_, rfl, rfl, rfl, rfl, rfl, rfl⟩

/-! ### C2: the Setup screen and the client -/

/-- C2 as stated fails in both directions: from a configuration with a PAT, "esc"
on the Projects screen shows Setup with the client still bound; from the empty
configuration, a `configSaved` message moves to Projects with no client. -/
theorem setup_iff_no_client_fails :
    (∃ m : Model plainLib, Reachable plainLib cfgPAT m
        ∧ m.view = View.viewSetup ∧ m.client ≠ none
        ∧ ¬ (m.view = View.viewSetup ↔ m.client = none))
    ∧ (∃ m : Model plainLib, Reachable plainLib cfgEmpty m
        ∧ m.view = View.viewProjects ∧ m.client = none
        ∧ ¬ (m.view = View.viewSetup ↔ m.client = none)) := by
  constructor
  · refine ⟨_, run_reachable plainLib cfgPAT [Msg.key "esc"] _ rfl, rfl, ?_, ?_⟩
    · intro h; cases h
    · intro h; have := h.1 rfl; cases this
  · refine ⟨_, run_reachable plainLib cfgEmpty [Msg.configSaved] _ rfl, rfl, rfl, ?_⟩
    intro h; have := h.2 rfl; cases this

/-- C2, amended: in every state reachable from `New cfg` by `Update` calls in
which `configSaved` arrives only once a client is bound, a screen other than
Setup has a client bound. -/
theorem client_bound_off_setup (L : Lib) (cfg : Config) (m : Model L)
    (hr : ReachableBy L (savedAfterBind L) cfg m) (hv : m.view ≠ View.viewSetup) :
    m.client.isSome := by
  induction hr with
  | init =>
    by_cases hcred : cfg.HasCredentials = true
    · simp [New, hcred]
    · simp [New, hcred] at hv
  | @step m0 m1 msg c _ hg hu ih =>
    by_cases hv0 : m0.view = View.viewSetup
    · by_cases hm : msg = Msg.configSaved
      · subst hm
        exact Update_client hu hg
      · exact absurd (Update_stays_on_setup hu hv0 hm) hv
    · exact Update_client hu (ih hv0)

/-- C2, amended, at a concrete state: the Projects screen after a first list of
projects has arrived. -/
theorem client_bound_off_setup_witness :
    ∃ m : Model plainLib, ReachableBy plainLib (savedAfterBind plainLib) cfgPAT m
      ∧ m.view ≠ View.viewSetup ∧ m.client.isSome :=
  have hr : ReachableBy plainLib (savedAfterBind plainLib) cfgPAT
      { New plainLib cfgPAT with projects := threeProjects, loading := false, err := none } :=
    @ReachableBy.step plainLib (savedAfterBind plainLib) cfgPAT (New plainLib cfgPAT) _
      (Msg.projectsLoaded threeProjects) Cmd.none ReachableBy.init trivial rfl
  have hv : ({ New plainLib cfgPAT with projects := threeProjects, loading := false, err := none }
      : Model plainLib).view ≠ View.viewSetup := by
    intro h; cases h
  ⟨_, hr, hv, client_bound_off_setup plainLib cfgPAT _ hr hv⟩

/-! ### C3: keys while loading -/

/-- C3 as stated fails on the Setup screen: after "esc" from the loading Projects
screen the model is on Setup with `loading = true`, and "tab" moves the focus
to the next field. -/
theorem loading_key_on_setup_not_dropped :
    ∃ m : Model plainLib, Reachable plainLib cfgPAT m
      ∧ m.view = View.viewSetup ∧ m.loading = true
      ∧ "tab" ≠ "ctrl+c" ∧ "tab" ≠ "esc"
      ∧ Update plainLib m (Msg.key "tab") ≠ some (m, Cmd.none) := by
  refine ⟨_, run_reachable plainLib cfgPAT [Msg.key "esc"] _ rfl, rfl, rfl, by decide, by decide, ?_⟩
  intro h
  have h2 := congrArg (fun r => r.map (fun p => p.1.setupCursor)) h
  exact absurd h2 (by decide)

/-- C3, amended: for every model with `loading = true` on the Projects, Threads
or Chat screen and every key other than ctrl+c and esc, `Update` returns the
model unchanged and the nil command. -/
theorem loading_drops_keys (L : Lib) (m : Model L) (k : String)
    (hl : m.loading = true) (hv : m.view ≠ View.viewSetup)
    (h1 : k ≠ "ctrl+c") (h2 : k ≠ "esc") :
    Update L m (Msg.key k) = some (m, Cmd.none) := by
  rw [Update_key L m k h1 h2]
  cases m with
  | mk cfg client view =>
    simp only at hl hv
    subst hl
    cases view <;> simp [updateView, updateProjects, updateThreads, updateChat] at hv ⊢

/-- C3, amended, at a concrete state: "j" on the Projects screen while the first
load is in flight. -/
theorem loading_drops_keys_witness :
    (New plainLib cfgPAT).loading = true ∧ (New plainLib cfgPAT).view ≠ View.viewSetup
      ∧ Update plainLib (New plainLib cfgPAT) (Msg.key "j") = some (New plainLib cfgPAT, Cmd.none) :=
  ⟨rfl, by decide,
    loading_drops_keys plainLib (New plainLib cfgPAT) "j" rfl (by decide) (by decide) (by decide)⟩

/-! ### C4 and C5: the cursors after a list is replaced -/

/-- C4, evaluated where it fails: the state after `shorterReload` is reachable
and has one project with `projectCursor = 2`, above `max(0, len(projects)-1) = 0`;
`projectsLoadedMsg` replaces the list and leaves the cursor. -/
theorem project_cursor_past_end (L : Lib) :
    ∃ m : Model L, Reachable L cfgPAT m
      ∧ m.projects.length = 1 ∧ m.projectCursor = 2
      ∧ ¬ (0 ≤ m.projectCursor ∧ m.projectCursor ≤ max 0 ((m.projects.length : Int) - 1)) := by
  refine ⟨_, run_reachable L cfgPAT shorterReload _ rfl, rfl, rfl, ?_⟩
  show ¬ (0 ≤ (2 : Int) ∧ (2 : Int) ≤ max 0 (((1 : Nat) : Int) - 1))
  decide

/-- C5, evaluated where it fails: the state after `emptyThreadsReload` is
reachable, on the Threads screen and idle, with no thread and `threadCursor = 2`;
`threadsLoadedMsg` replaces the list and leaves the cursor, and the next "enter"
indexes `m.threads[1]`, which panics. -/
theorem thread_cursor_past_end (L : Lib) :
    ∃ m : Model L, Reachable L cfgPAT m
      ∧ m.view = View.viewThreads ∧ m.loading = false
      ∧ m.threads.length = 0 ∧ m.threadCursor = 2
      ∧ ¬ (0 ≤ m.threadCursor ∧ m.threadCursor ≤ (m.threads.length : Int))
      ∧ Update L m (Msg.key "enter") = none := by
  refine ⟨_, run_reachable L cfgPAT emptyThreadsReload _ rfl, rfl, rfl, rfl, rfl, ?_, rfl⟩
  show ¬ (0 ≤ (2 : Int) ∧ (2 : Int) ≤ ((0 : Nat) : Int))
  decide

/-! ### C6: error results -/

/-- C6: for every model, on any screen, an error message carrying the error `e`
yields `loading = false` and `err = e` with the nil command; the screen, the
messages and every other field are those of the model before. -/
theorem errMsg_sets_error (L : Lib) (m : Model L) (e : String) :
    Update L m (Msg.err (some e)) = some ({ m with err := some e, loading := false }, Cmd.none) := by
  rfl

/-! ### C7 and C8: moving the cursors -/

/-- C7: on the Projects screen with `loading = false` and `0 ≤ c < |P|`, "j" and
"down" set the cursor to `min(c+1, |P|-1)`, "k" and "up" set it to
`max(c-1, 0)`; nothing else in the model changes and the command is nil. -/
theorem projects_cursor_keys (L : Lib) (m : Model L)
    (hv : m.view = View.viewProjects) (hl : m.loading = false)
    (h0 : 0 ≤ m.projectCursor) (h1 : m.projectCursor < (m.projects.length : Int)) :
    Update L m (Msg.key "j")
        = some ({ m with projectCursor := min (m.projectCursor + 1) ((m.projects.length : Int) - 1) },
                Cmd.none)
      ∧ Update L m (Msg.key "down")
        = some ({ m with projectCursor := min (m.projectCursor + 1) ((m.projects.length : Int) - 1) },
                Cmd.none)
      ∧ Update L m (Msg.key "k")
        = some ({ m with projectCursor := max (m.projectCursor - 1) 0 }, Cmd.none)
      ∧ Update L m (Msg.key "up")
        = some ({ m with projectCursor := max (m.projectCursor - 1) 0 }, Cmd.none) := by
  cases m
  simp only at hv hl h0 h1
  subst hv hl
  refine ⟨?_, ?_, ?_, ?_⟩ <;>
    rw [Update_key L _ _ (by decide) (by decide)] <;>
    simp [updateView, updateProjects] <;>
    split <;> simp <;> omega

/-- C7 at a concrete state: three projects, cursor on the second. -/
theorem projects_cursor_keys_witness :
    Update plainLib projectsAtOne (Msg.key "j")
        = some ({ projectsAtOne with projectCursor := 2 }, Cmd.none)
      ∧ Update plainLib projectsAtOne (Msg.key "k")
        = some ({ projectsAtOne with projectCursor := 0 }, Cmd.none) :=
  have h := projects_cursor_keys plainLib projectsAtOne rfl rfl (by decide) (by decide)
  ⟨h.1, h.2.2.1⟩

/-- C8: on the Threads screen with `loading = false` and `0 ≤ c ≤ |T|`, "j" and
"down" set the cursor to `min(c+1, |T|)`, "k" and "up" set it to `max(c-1, 0)`;
nothing else in the model changes and the command is nil. -/
theorem threads_cursor_keys (L : Lib) (m : Model L)
    (hv : m.view = View.viewThreads) (hl : m.loading = false)
    (h0 : 0 ≤ m.threadCursor) (h1 : m.threadCursor ≤ (m.threads.length : Int)) :
    Update L m (Msg.key "j")
        = some ({ m with threadCursor := min (m.threadCursor + 1) (m.threads.length : Int) },
                Cmd.none)
      ∧ Update L m (Msg.key "down")
        = some ({ m with threadCursor := min (m.threadCursor + 1) (m.threads.length : Int) },
                Cmd.none)
      ∧ Update L m (Msg.key "k")
        = some ({ m with threadCursor := max (m.threadCursor - 1) 0 }, Cmd.none)
      ∧ Update L m (Msg.key "up")
        = some ({ m with threadCursor := max (m.threadCursor - 1) 0 }, Cmd.none) := by
  cases m
  simp only at hv hl h0 h1
  subst hv hl
  refine ⟨?_, ?_, ?_, ?_⟩ <;>
    rw [Update_key L _ _ (by decide) (by decide)] <;>
    simp [updateView, updateThreads] <;>
    split <;> simp <;> omega

/-- C8 at a concrete state: two threads, cursor on the last. -/
theorem threads_cursor_keys_witness :
    Update plainLib threadsAtTwo (Msg.key "j")
        = some ({ threadsAtTwo with threadCursor := 2 }, Cmd.none)
      ∧ Update plainLib threadsAtTwo (Msg.key "k")
        = some ({ threadsAtTwo with threadCursor := 1 }, Cmd.none) :=
  have h := threads_cursor_keys plainLib threadsAtTwo rfl rfl (by decide) (by decide)
  ⟨h.1, h.2.2.1⟩

/-! ### C9: going back -/

/-- C9: for every model, whatever `loading` is, "esc" returns the nil command
and a model whose screen is the one before (Chat to Threads, Threads to Projects,
Projects to Setup, Setup stays), whose error is cleared on the three screens that
move, which is the same model on Setup, and in which `loading`, the two lists,
the two cursors, `threadID` and `messages` are unchanged. -/
theorem esc_goes_back (L : Lib) (m : Model L) :
    ∃ m1 : Model L,
      Update L m (Msg.key "esc") = some (m1, Cmd.none)
      ∧ m1.view =
          (match m.view with
           | View.viewChat => View.viewThreads
           | View.viewThreads => View.viewProjects
           | View.viewProjects => View.viewSetup
           | View.viewSetup => View.viewSetup)
      ∧ m1.err = (if m.view = View.viewSetup then m.err else none)
      ∧ (if m.view = View.viewSetup then m1 = m else True)
      ∧ m1.loading = m.loading
      ∧ m1.projects = m.projects
      ∧ m1.threads = m.threads
      ∧ m1.projectCursor = m.projectCursor
      ∧ m1.threadCursor = m.threadCursor
      ∧ m1.threadID = m.threadID
      ∧ m1.messages = m.messages := by
  cases m with
  | mk cfg client view =>
    cases view <;> simp [Update, handleEsc]

/-! ### C10: saving the setup form -/

/-- C10: on the Setup screen, "enter" with an empty PAT field sets the error
"PAT is required" and changes nothing else, with the nil command; with a
non-empty PAT field it returns the save command and a model whose credentials
hold the PAT, API key and DDN URL fields, the timezone field or "UTC" when that
field is empty (so never the empty string), the project identifier as before,
and whose client is a new one built from the PAT and the API key. -/
theorem setup_enter_saves (L : Lib) (m : Model L) (hv : m.view = View.viewSetup) :
    (L.inputValue m.setupInputs.fieldPAT = "" →
        Update L m (Msg.key "enter") = some ({ m with err := some "PAT is required" }, Cmd.none))
    ∧ (L.inputValue m.setupInputs.fieldPAT ≠ "" →
        ∃ m1 : Model L,
          Update L m (Msg.key "enter") = some (m1, Cmd.saveConfig)
          ∧ m1.cfg.pat = L.inputValue m.setupInputs.fieldPAT
          ∧ m1.cfg.apiKey = L.inputValue m.setupInputs.fieldAPIKey
          ∧ m1.cfg.ddnURL = L.inputValue m.setupInputs.fieldDDNURL
          ∧ m1.cfg.timezone =
              (if L.inputValue m.setupInputs.fieldTimezone = "" then "UTC"
               else L.inputValue m.setupInputs.fieldTimezone)
          ∧ m1.cfg.timezone ≠ ""
          ∧ m1.cfg.projectID = m.cfg.projectID
          ∧ m1.client =
              some (NewClient { pat := L.inputValue m.setupInputs.fieldPAT,
                                apiKey := L.inputValue m.setupInputs.fieldAPIKey })) := by
  cases m with
  | mk cfg client view =>
    simp only at hv
    subst hv
    constructor
    · intro h
      rw [Update_key L _ _ (by decide) (by decide)]
      simp [updateView, updateSetup, saveSetup, h]
    · intro h
      rw [Update_key L _ _ (by decide) (by decide)]
      simp [updateView, updateSetup, saveSetup, h]
      split <;> simp [*]

/-- C10 at two concrete states: the fresh Setup screen with nothing typed, and
the Setup screen with a PAT and an API key typed and no timezone. -/
theorem setup_enter_saves_witness :
    Update plainLib (New plainLib cfgEmpty) (Msg.key "enter")
        = some ({ New plainLib cfgEmpty with err := some "PAT is required" }, Cmd.none)
      ∧ ∃ m1 : Model plainLib,
          Update plainLib setupWithPAT (Msg.key "enter") = some (m1, Cmd.saveConfig)
          ∧ m1.cfg.pat = "PAT123" ∧ m1.cfg.apiKey = "k" ∧ m1.cfg.timezone = "UTC" :=
  ⟨(setup_enter_saves plainLib (New plainLib cfgEmpty) rfl).1 rfl,
    match (setup_enter_saves plainLib setupWithPAT rfl).2 (by decide) with
    | ⟨m1, h, hp, hk, _, ht, _⟩ => ⟨m1, h, hp, hk, ht⟩⟩

/-! ### C11: sending a message -/

/-- C11: on the Chat screen with `loading = false`, ctrl+s with a chat input whose
trimmed text is empty returns the model unchanged and the nil command; otherwise
the trimmed text is appended as a user message, the input is reset, and the
first rule that applies decides the rest: client bound and project selected with
no thread yet, `startThread`; the same with a thread, `sendThreadMessage`; else
API key and DDN URL both set, `executeQuery` (in these three `loading = true`,
no error); else the error "no project selected or API key + DDN URL configured"
with `loading = false` and the nil command. -/
theorem ctrl_s_sends (L : Lib) (m : Model L)
    (hv : m.view = View.viewChat) (hl : m.loading = false) :
    (trimSpace (L.areaValue m.chatInput) = "" →
        Update L m (Msg.key "ctrl+s") = some (m, Cmd.none))
    ∧ (trimSpace (L.areaValue m.chatInput) ≠ "" →
        (m.client.isSome ∧ m.selectedProject.isSome → m.threadID = "" →
          Update L m (Msg.key "ctrl+s")
            = some ({ m with
                      messages := m.messages ++
                        [{ role := "user", content := trimSpace (L.areaValue m.chatInput) }]
                      chatInput := L.areaReset m.chatInput
                      loading := true
                      err := none },
                    Cmd.batch [Cmd.spinnerTick,
                      Cmd.startThread (trimSpace (L.areaValue m.chatInput))]))
        ∧ (m.client.isSome ∧ m.selectedProject.isSome → m.threadID ≠ "" →
          Update L m (Msg.key "ctrl+s")
            = some ({ m with
                      messages := m.messages ++
                        [{ role := "user", content := trimSpace (L.areaValue m.chatInput) }]
                      chatInput := L.areaReset m.chatInput
                      loading := true
                      err := none },
                    Cmd.batch [Cmd.spinnerTick,
                      Cmd.sendThreadMessage (trimSpace (L.areaValue m.chatInput))]))
        ∧ (¬ (m.client.isSome ∧ m.selectedProject.isSome) →
            m.cfg.apiKey ≠ "" ∧ m.cfg.ddnURL ≠ "" →
          Update L m (Msg.key "ctrl+s")
            = some ({ m with
                      messages := m.messages ++
                        [{ role := "user", content := trimSpace (L.areaValue m.chatInput) }]
                      chatInput := L.areaReset m.chatInput
                      loading := true
                      err := none },
                    Cmd.batch [Cmd.spinnerTick,
                      Cmd.executeQuery (trimSpace (L.areaValue m.chatInput))]))
        ∧ (¬ (m.client.isSome ∧ m.selectedProject.isSome) →
            ¬ (m.cfg.apiKey ≠ "" ∧ m.cfg.ddnURL ≠ "") →
          Update L m (Msg.key "ctrl+s")
            = some ({ m with
                      messages := m.messages ++
                        [{ role := "user", content := trimSpace (L.areaValue m.chatInput) }]
                      chatInput := L.areaReset m.chatInput
                      loading := false
                      err := some "no project selected or API key + DDN URL configured" },
                    Cmd.none))) := by
  rw [Update_key L m _ (by decide) (by decide)]
  cases m with
  | mk cfg client view =>
    simp only at hv hl
    subst hv hl
    refine ⟨fun h => ?_, fun h => ⟨fun h1 h2 => ?_, fun h1 h2 => ?_, fun h1 h2 => ?_, fun h1 h2 => ?_⟩⟩
    · simp only at h
      simp [updateView, updateChat, sendMessage, h]
    · simp only at h h1 h2
      simp [updateView, updateChat, sendMessage, h, h1.1, h1.2, h2]
    · simp only at h h1 h2
      simp [updateView, updateChat, sendMessage, h, h1.1, h1.2, h2]
    · simp only at h h1 h2
      simp [updateView, updateChat, sendMessage, h, h1, h2.1, h2.2]
    · simp only at h h1 h2
      simp [updateView, updateChat, sendMessage, h, h1, h2]

/-- C11 at a concrete state: " hello " typed, a project selected, no thread yet. -/
theorem ctrl_s_sends_witness :
    Update plainLib chatTyped (Msg.key "ctrl+s")
      = some ({ chatTyped with
                messages := [{ role := "user", content := "hello" }]
                chatInput := { value := "", focus := true }
                loading := true
                err := none },
              Cmd.batch [Cmd.spinnerTick, Cmd.startThread "hello"]) :=
  ((ctrl_s_sends plainLib chatTyped rfl rfl).2 (by decide)).1 ⟨rfl, rfl⟩ rfl

/-! ### C12 and C13: opening a thread -/

/-- C12: on the Threads screen with `loading = false` and
`1 ≤ threadCursor ≤ len(threads)`, "enter" resumes `threads[threadCursor-1]`: it
is the active thread, `threadID` is its identifier, `messages` is empty, the
screen is Chat, `loading` is true and the command loads the events of that
thread. -/
theorem threads_enter_resumes (L : Lib) (m : Model L)
    (hv : m.view = View.viewThreads) (hl : m.loading = false)
    (h1 : 1 ≤ m.threadCursor) (h2 : m.threadCursor ≤ (m.threads.length : Int)) :
    ∃ t : Thread,
      m.threads[(m.threadCursor - 1).toNat]? = some t
      ∧ Update L m (Msg.key "enter")
          = some ({ m with
                    activeThread := some t
                    threadID := t.threadID
                    view := View.viewChat
                    loading := true
                    messages := []
                    chatInput := L.areaFocus m.chatInput },
                  Cmd.batch [Cmd.spinnerTick, Cmd.loadEvents t.threadID]) := by
  have hlt : (m.threadCursor - 1).toNat < m.threads.length := by omega
  refine ⟨m.threads[(m.threadCursor - 1).toNat], by simp [hlt], ?_⟩
  rw [Update_key L m _ (by decide) (by decide)]
  have hidx : goIndex m.threads (m.threadCursor - 1)
      = some (m.threads[(m.threadCursor - 1).toNat]) := by
    unfold goIndex
    rw [if_pos (by omega)]
    simp [hlt]
  have hne : ¬ (m.threadCursor = 0) := by omega
  generalize m.threads[(m.threadCursor - 1).toNat] = t at hidx ⊢
  cases m with
  | mk cfg client view =>
    simp only at hv hl hidx hne
    subst hv hl
    simp [updateView, updateThreads, hne, hidx, resumeThread]

/-- C12 at a concrete state: two threads, cursor on the second. -/
theorem threads_enter_resumes_witness :
    Update plainLib threadsAtTwo (Msg.key "enter")
      = some ({ threadsAtTwo with
                activeThread := some (threadWithID "t-2")
                threadID := "t-2"
                view := View.viewChat
                loading := true
                messages := []
                chatInput := plainLib.areaFocus threadsAtTwo.chatInput },
              Cmd.batch [Cmd.spinnerTick, Cmd.loadEvents "t-2"]) :=
  match threads_enter_resumes plainLib threadsAtTwo rfl rfl (by decide) (by decide) with
  | ⟨_, ht, h⟩ => by
    cases ht
    exact h

/-- C13: on the Threads screen with `loading = false`, "enter" at cursor 0 gives
the Chat screen with empty `threadID`, no active thread, no message and the nil
command; "n" gives that same result for every value of the cursor, which it
leaves as it is: it equals "enter" when the cursor is 0, and in general it is
what "enter" returns from cursor 0 with the cursor put back. -/
theorem new_thread_keys (L : Lib) (m : Model L)
    (hv : m.view = View.viewThreads) (hl : m.loading = false) :
    (m.threadCursor = 0 →
        Update L m (Msg.key "enter")
          = some ({ m with
                    view := View.viewChat
                    threadID := ""
                    activeThread := none
                    messages := []
                    chatInput := L.areaFocus m.chatInput },
                  Cmd.none))
    ∧ Update L m (Msg.key "n")
          = some ({ m with
                    view := View.viewChat
                    threadID := ""
                    activeThread := none
                    messages := []
                    chatInput := L.areaFocus m.chatInput },
                  Cmd.none)
    ∧ (m.threadCursor = 0 → Update L m (Msg.key "n") = Update L m (Msg.key "enter"))
    ∧ Update L m (Msg.key "n")
        = (Update L { m with threadCursor := 0 } (Msg.key "enter")).map
            (fun r => ({ r.1 with threadCursor := m.threadCursor }, r.2)) := by
  rw [Update_key L m _ (by decide) (by decide), Update_key L m _ (by decide) (by decide),
    Update_key L _ _ (by decide) (by decide)]
  cases m with
  | mk cfg client view =>
    simp only at hv hl
    subst hv hl
    refine ⟨fun h => ?_, ?_, fun h => ?_, ?_⟩
    · simp only at h
      simp [updateView, updateThreads, h]
    · simp [updateView, updateThreads]
    · simp only at h
      simp [updateView, updateThreads, h]
    · simp [updateView, updateThreads]

/-- C13 at a concrete state: "n" with the cursor on the second of two threads. -/
theorem new_thread_keys_witness :
    Update plainLib threadsAtTwo (Msg.key "n")
      = some ({ threadsAtTwo with
                view := View.viewChat
                threadID := ""
                activeThread := none
                messages := []
                chatInput := plainLib.areaFocus threadsAtTwo.chatInput },
              Cmd.none)
    ∧ Update plainLib { threadsAtTwo with threadCursor := 0 } (Msg.key "n")
        = Update plainLib { threadsAtTwo with threadCursor := 0 } (Msg.key "enter") :=
  ⟨(new_thread_keys plainLib threadsAtTwo rfl rfl).2.1,
    (new_thread_keys plainLib { threadsAtTwo with threadCursor := 0 } rfl rfl).2.2.1 rfl⟩

/-! ### Lemmas on the extraction loops -/

/-- A fold that appends `f x` for the elements satisfying `p` is a `filterMap`
appended to the start value. -/
theorem foldl_append_if {α β : Type} (p : α → Prop) [DecidablePred p] (f : α → β)
    (xs : List α) (init : List β) :
    xs.foldl (fun acc x => if p x then acc ++ [f x] else acc) init
      = init ++ xs.filterMap (fun x => if p x then some (f x) else none) := by
  induction xs generalizing init with
  | nil => simp
  | cons x rest ih =>
    simp only [List.foldl_cons, List.filterMap_cons]
    by_cases hp : p x
    · simp [hp, ih]
    · simp [hp, ih]

/-- The loop over thread events in the handlers appends `eventMessages`. -/
theorem foldl_events (roleOf : ThreadEvent → String) (events : List ThreadEvent)
    (init : List ChatMessage) :
    events.foldl
        (fun acc evt =>
          if extractEventContent evt ≠ "" then
            acc ++ [{ role := roleOf evt, content := extractEventContent evt }]
          else acc)
        init
      = init ++ eventMessages roleOf events := by
  rw [foldl_append_if (fun evt => extractEventContent evt ≠ "")]
  unfold eventMessages
  congr 1
  apply List.filterMap_congr
  intro evt _
  by_cases h : extractEventContent evt = "" <;> simp [h]

/-- The helper `isUserEvent` accepts an event exactly when its data has the key
`user_message` or the string "user" under `role`. -/
theorem isUserEvent_iff (evt : ThreadEvent) :
    isUserEvent evt = true ↔
      ∃ d, evt.eventData = some d
        ∧ ((mapIndex d "user_message").isSome ∨ asString (mapIndex d "role") = some "user") := by
  unfold isUserEvent
  cases hd : evt.eventData with
  | none => simp
  | some d =>
    simp only [Option.some.injEq, exists_eq_left']
    cases hu : mapIndex d "user_message" with
    | some v => simp
    | none =>
      cases hr : asString (mapIndex d "role") with
      | none => simp
      | some role => simp

/-- The scan of `extractQueryResult` finds the first qualifying entry of the
list it is given. -/
theorem scanInteractions_eq (ys : List JVal) :
    scanInteractions ys = (ys.filterMap assistantText).head? := by
  induction ys with
  | nil => rfl
  | cons y rest ih =>
    cases y with
    | obj inter =>
      simp only [scanInteractions, List.filterMap_cons, assistantText]
      cases hr : asString (mapIndex inter "role") with
      | none => simp [ih]
      | some role =>
        by_cases h : role = "assistant"
        · subst h
          cases ht : textOf inter "assistant_message" with
          | none => simp [ih]
          | some t => simp
        · simp [h, ih]
    | null => simp [scanInteractions, assistantText, ih]
    | bool b => simp [scanInteractions, assistantText, ih]
    | num n => simp [scanInteractions, assistantText, ih]
    | str s => simp [scanInteractions, assistantText, ih]
    | arr xs => simp [scanInteractions, assistantText, ih]

/-! ### C14: resumed events -/

/-- C14 as stated fails: an event whose content is taken from
`assistant_message.text` and whose `role` is "user" is appended with role user,
not assistant. -/
theorem events_role_not_by_source :
    ∃ d : JObj, assistantAndUserRole.eventData = some d
      ∧ textOf d "assistant_message" = some "hi"
      ∧ extractEventContent assistantAndUserRole = "hi"
      ∧ ∃ m1 : Model plainLib,
          Update plainLib chatIdle (Msg.eventsLoaded [assistantAndUserRole]) = some (m1, Cmd.none)
          ∧ m1.messages = [{ role := "user", content := "hi" }]
          ∧ m1.messages ≠ [{ role := "assistant", content := "hi" }] :=
  ⟨_, rfl, rfl, rfl, _, rfl, rfl, by decide⟩

/-- C14, amended: on the Chat screen `eventsLoaded` clears `loading` and the
error and appends, in event order, one message per event whose extracted content
is non-empty; its role is user exactly when the event data has the key
`user_message` or the string "user" under `role`, and assistant otherwise,
whichever rule gave the content. So content taken from `user_message.text` is
appended as user, and an event with no `user_message` key and no role "user" is
appended as assistant. -/
theorem events_loaded_appends (L : Lib) (m : Model L) (events : List ThreadEvent)
    (hv : m.view = View.viewChat) :
    Update L m (Msg.eventsLoaded events)
        = some ({ m with
                  loading := false
                  err := none
                  messages := m.messages ++ eventMessages roleOfEvent events },
                Cmd.none)
    ∧ (∀ evt : ThreadEvent, roleOfEvent evt = "user" ↔
        ∃ d, evt.eventData = some d
          ∧ ((mapIndex d "user_message").isSome ∨ asString (mapIndex d "role") = some "user"))
    ∧ (∀ evt : ThreadEvent, roleOfEvent evt = "assistant" ∨ roleOfEvent evt = "user")
    ∧ (∀ (evt : ThreadEvent) (d : JObj) (s : String), evt.eventData = some d →
        textOf d "user_message" = some s → roleOfEvent evt = "user")
    ∧ (∀ (evt : ThreadEvent) (d : JObj), evt.eventData = some d →
        mapIndex d "user_message" = none → asString (mapIndex d "role") ≠ some "user" →
        roleOfEvent evt = "assistant") := by
  have hrole : ∀ evt : ThreadEvent, roleOfEvent evt = "user" ↔ isUserEvent evt = true := by
    intro evt
    unfold roleOfEvent
    cases isUserEvent evt <;> simp
  refine ⟨?_, ?_, ?_, ?_, ?_⟩
  · have hfold := foldl_events roleOfEvent events m.messages
    unfold roleOfEvent at hfold
    cases m with
    | mk cfg client view =>
      simp only at hv hfold
      subst hv
      simp only [Update, updateView, updateChat, hfold]
      rfl
  · intro evt
    rw [hrole, isUserEvent_iff]
  · intro evt
    unfold roleOfEvent
    cases isUserEvent evt <;> simp
  · intro evt d s hd ht
    rw [hrole, isUserEvent_iff]
    refine ⟨d, hd, Or.inl ?_⟩
    unfold textOf at ht
    cases hu : mapIndex d "user_message" with
    | none => rw [hu] at ht; simp [asObject] at ht
    | some v => rfl
  · intro evt d hd hu hr
    have hnot : ¬ (isUserEvent evt = true) := by
      rw [isUserEvent_iff]
      rintro ⟨d1, hd1, h⟩
      rw [hd] at hd1
      cases hd1
      rcases h with h | h
      · rw [hu] at h; cases h
      · exact hr h
    unfold roleOfEvent
    simp [hnot]

/-- C14, amended, at a concrete state: a user event and an assistant event
arrive on an empty chat. -/
theorem events_loaded_appends_witness :
    ∃ m1 : Model plainLib,
      Update plainLib chatIdle
          (Msg.eventsLoaded
            [eventOf [("user_message", JVal.obj [("text", JVal.str "q")])],
             eventOf [("assistant_message", JVal.obj [("text", JVal.str "a")])]])
        = some (m1, Cmd.none)
      ∧ m1.loading = false
      ∧ m1.messages = [{ role := "user", content := "q" }, { role := "assistant", content := "a" }] :=
  ⟨_, (events_loaded_appends plainLib chatIdle _ rfl).1, rfl, rfl⟩

/-! ### C15 and C16: content extraction -/

/-- C15: for every thread event, `extractEventContent` is the empty string when
`eventData` is nil and otherwise the first that is present of
`eventData.assistant_message.text`, `eventData.user_message.text`,
`eventData.message` and `eventData.text`, each present when it is a string, and
the empty string when none is; the three events of the claim give "hi", "x"
and "". -/
theorem extractEventContent_first_match (evt : ThreadEvent) :
    extractEventContent evt
        = (match evt.eventData with
           | none => ""
           | some d =>
             firstPresent
               [textOf d "assistant_message", textOf d "user_message",
                asString (mapIndex d "message"), asString (mapIndex d "text")])
    ∧ (∀ (d : JObj) (k s : String), textOf d k = some s ↔
        ∃ t : JObj, mapIndex d k = some (JVal.obj t) ∧ mapIndex t "text" = some (JVal.str s))
    ∧ (∀ (d : JObj) (k s : String), asString (mapIndex d k) = some s ↔
        mapIndex d k = some (JVal.str s))
    ∧ extractEventContent (eventOf [("assistant_message", JVal.obj [("text", JVal.str "hi")])])
        = "hi"
    ∧ extractEventContent (eventOf [("role", JVal.str "user"), ("text", JVal.str "x")]) = "x"
    ∧ extractEventContent (eventOf []) = "" := by
  have hstr : ∀ (v : Option JVal) (s : String), asString v = some s ↔ v = some (JVal.str s) := by
    intro v s
    cases v with
    | none => simp [asString]
    | some j => cases j <;> simp [asString]
  refine ⟨?_, ?_, ?_, rfl, rfl, rfl⟩
  · unfold extractEventContent
    cases evt.eventData with
    | none => rfl
    | some d =>
      simp only
      cases textOf d "assistant_message" <;> cases textOf d "user_message" <;>
        cases asString (mapIndex d "message") <;> cases asString (mapIndex d "text") <;> rfl
  · intro d k s
    unfold textOf
    cases hk : mapIndex d k with
    | none => simp [asObject]
    | some j => cases j <;> simp [asObject, hstr]
  · intro d k s
    exact hstr _ _

/-- C16: `extractQueryResult` is the empty string for a nil payload; for a
payload `r` it is the text of the last entry of `interactions` that has
`role == "assistant"` and a string `assistant_message.text`, and when there is
no such entry (or no `interactions` array) the string `message`, else the
string `text`, else the formatted payload. A payload with two assistant
entries gives the text of the later one. -/
theorem extractQueryResult_last_assistant (L : Lib) :
    extractQueryResult L none = ""
    ∧ (∀ r : JObj,
        extractQueryResult L (some r)
          = (match (match asArray (mapIndex r "interactions") with
                    | some interactions => (interactions.filterMap assistantText).getLast?
                    | none => none) with
             | some text => text
             | none =>
               match asString (mapIndex r "message") with
               | some msg => msg
               | none =>
                 match asString (mapIndex r "text") with
                 | some text => text
                 | none => L.formatMap r))
    ∧ extractQueryResult L (some twoAnswers) = "answer"
    ∧ extractQueryResult L (some [("text", JVal.str "t")]) = "t"
    ∧ extractQueryResult L (some []) = L.formatMap [] := by
  refine ⟨rfl, ?_, rfl, rfl, rfl⟩
  intro r
  unfold extractQueryResult
  simp only
  cases asArray (mapIndex r "interactions") with
  | none => rfl
  | some xs =>
    simp only [scanInteractions_eq, List.filterMap_reverse, List.head?_reverse]

/-! ### C17: a started thread -/

/-- C17: on the Chat screen `threadStarted` with result `r` sets `threadID` to
`r.threadID` and the active thread to one with that identifier and `r.title`,
clears `loading` and the error, keeps the messages there are and appends after
them, in order, the content extracted from each returned event that has some,
each with role assistant. -/
theorem thread_started_appends (L : Lib) (m : Model L) (r : StartThreadResult)
    (hv : m.view = View.viewChat) :
    Update L m (Msg.threadStarted (some r))
        = some ({ m with
                  loading := false
                  err := none
                  threadID := r.threadID
                  activeThread := some (threadOfStart r)
                  messages := m.messages ++ eventMessages (fun _ => "assistant") r.threadEvents },
                Cmd.none)
    ∧ (threadOfStart r).threadID = r.threadID
    ∧ (threadOfStart r).title = r.title := by
  refine ⟨?_, rfl, rfl⟩
  have hfold := foldl_events (fun _ => "assistant") r.threadEvents m.messages
  cases m with
  | mk cfg client view =>
    simp only at hv hfold
    subst hv
    simp only [Update, updateView, updateChat, Option.bind_eq_bind, Option.some_bind, hfold]

/-- C17 at the state of the claim: the chat holds the user message "hello" and
the start result carries the assistant text "hi!". -/
theorem thread_started_appends_witness :
    ∃ m1 : Model plainLib,
      Update plainLib helloThenHi (Msg.threadStarted (some startedT9)) = some (m1, Cmd.none)
      ∧ m1.threadID = "t-9" ∧ m1.loading = false
      ∧ m1.activeThread = some (threadOfStart startedT9)
      ∧ m1.messages
          = [{ role := "user", content := "hello" }, { role := "assistant", content := "hi!" }] :=
  ⟨_, (thread_started_appends plainLib helloThenHi startedT9 rfl).1, rfl, rfl, rfl, rfl⟩

/-! ### C18: the active thread and its identifier -/

/-- The Setup handler leaves the active thread and the thread identifier. -/
theorem updateSetup_thread {L : Lib} {m m1 : Model L} {msg : Msg} {c : Cmd}
    (h : updateSetup L m msg = some (m1, c)) :
    m1.activeThread = m.activeThread ∧ m1.threadID = m.threadID := by
  simp only [updateSetup, moveSetupCursor, saveSetup] at h
  repeat' split at h
  all_goals
    simp only [Option.bind_eq_bind, Option.bind_eq_some, Option.some.injEq, Prod.mk.injEq] at h
  all_goals first
    | (obtain ⟨rfl, -⟩ := h; exact ⟨rfl, rfl⟩)
    | (obtain ⟨_, _, _, _, rfl, -⟩ := h; exact ⟨rfl, rfl⟩)
    | (obtain ⟨_, _, _, _, _, _, _, _, rfl, -⟩ := h; exact ⟨rfl, rfl⟩)

/-- The Projects handler leaves the active thread and the thread identifier. -/
theorem updateProjects_thread {L : Lib} {m m1 : Model L} {msg : Msg} {c : Cmd}
    (h : updateProjects L m msg = some (m1, c)) :
    m1.activeThread = m.activeThread ∧ m1.threadID = m.threadID := by
  simp only [updateProjects, selectProject] at h
  repeat' split at h
  all_goals
    simp only [Option.bind_eq_bind, Option.bind_eq_some, Option.some.injEq, Prod.mk.injEq] at h
  all_goals first
    | (obtain ⟨rfl, -⟩ := h; exact ⟨rfl, rfl⟩)
    | (obtain ⟨_, _, rfl, -⟩ := h; exact ⟨rfl, rfl⟩)

/-- Going back leaves the active thread and the thread identifier. -/
theorem handleEsc_thread {L : Lib} {m m1 : Model L} {c : Cmd}
    (h : handleEsc L m = some (m1, c)) :
    m1.activeThread = m.activeThread ∧ m1.threadID = m.threadID := by
  unfold handleEsc at h
  repeat' split at h
  all_goals
    simp only [Option.some.injEq, Prod.mk.injEq] at h
  all_goals (obtain ⟨rfl, -⟩ := h; exact ⟨rfl, rfl⟩)

/-- The Threads handler keeps the active thread and the identifier in agreement. -/
theorem updateThreads_agrees {L : Lib} {m m1 : Model L} {msg : Msg} {c : Cmd}
    (h : updateThreads L m msg = some (m1, c)) (hi : activeThreadAgrees m) :
    activeThreadAgrees m1 := by
  simp only [updateThreads, resumeThread] at h
  repeat' split at h
  all_goals
    simp only [Option.bind_eq_bind, Option.bind_eq_some, Option.some.injEq, Prod.mk.injEq] at h
  all_goals first
    | (obtain ⟨rfl, -⟩ := h; first | exact hi | (intro t ht; cases ht))
    | (obtain ⟨_, _, rfl, -⟩ := h; intro t ht; cases ht; rfl)

/-- The Chat handler keeps the active thread and the identifier in agreement. -/
theorem updateChat_agrees {L : Lib} {m m1 : Model L} {msg : Msg} {c : Cmd}
    (h : updateChat L m msg = some (m1, c)) (hi : activeThreadAgrees m) :
    activeThreadAgrees m1 := by
  simp only [updateChat, sendMessage] at h
  repeat' split at h
  all_goals
    simp only [Option.bind_eq_bind, Option.bind_eq_some, Option.some.injEq, Prod.mk.injEq] at h
  all_goals first
    | (obtain ⟨rfl, -⟩ := h; exact hi)
    | (obtain ⟨_, _, rfl, -⟩ := h; intro t ht; cases ht; rfl)

/-- One call of `Update` keeps the active thread and the identifier in agreement. -/
theorem Update_agrees {L : Lib} {m m1 : Model L} {msg : Msg} {c : Cmd}
    (h : Update L m msg = some (m1, c)) (hi : activeThreadAgrees m) :
    activeThreadAgrees m1 := by
  have hkeep : ∀ m2 : Model L, m2.activeThread = m.activeThread ∧ m2.threadID = m.threadID →
      activeThreadAgrees m2 := by
    intro m2 h2 t ht
    rw [h2.1] at ht
    rw [h2.2]
    exact hi t ht
  have hview : ∀ msg1 : Msg, updateView L m msg1 = some (m1, c) → activeThreadAgrees m1 := by
    intro msg1 h1
    unfold updateView at h1
    split at h1
    · exact hkeep m1 (updateSetup_thread h1)
    · exact hkeep m1 (updateProjects_thread h1)
    · exact updateThreads_agrees h1 hi
    · exact updateChat_agrees h1 hi
  unfold Update at h
  repeat' split at h
  all_goals first
    | exact hview _ h
    | exact hkeep m1 (handleEsc_thread h)
    | (simp only [Option.some.injEq, Prod.mk.injEq] at h; obtain ⟨rfl, -⟩ := h; exact hi)

/-- The agreement holds in every reachable state. -/
theorem reachable_agrees {L : Lib} {cfg : Config} {m : Model L}
    (hr : ReachableBy L (fun _ _ => True) cfg m) : activeThreadAgrees m := by
  induction hr with
  | init =>
    intro t1 ht1
    by_cases hcred : cfg.HasCredentials = true <;> simp [New, hcred] at ht1
  | step _ _ hu ih => exact Update_agrees hu ih

/-- C18: in every state reachable from `New cfg` by `Update` calls, an active
thread has the identifier stored in `threadID`. -/
theorem active_thread_agrees (L : Lib) (cfg : Config) (m : Model L) (t : Thread)
    (hr : Reachable L cfg m) (ha : m.activeThread = some t) :
    m.threadID = t.threadID :=
  reachable_agrees hr t ha

/-- C18 at a concrete state: the first of two threads was resumed. -/
theorem active_thread_agrees_witness :
    ∃ m : Model plainLib, Reachable plainLib cfgPAT m
      ∧ m.activeThread = some (threadWithID "t-1") ∧ m.threadID = "t-1" :=
  ⟨_, run_reachable plainLib cfgPAT resumeFirst _ rfl, rfl,
    active_thread_agrees plainLib cfgPAT _ (threadWithID "t-1")
      (run_reachable plainLib cfgPAT resumeFirst _ rfl) rfl⟩

/-! ### C19: the messages of a chat session -/

/-- The Chat handler only appends to the messages. -/
theorem updateChat_messages {L : Lib} {m m1 : Model L} {msg : Msg} {c : Cmd}
    (h : updateChat L m msg = some (m1, c)) : m.messages <+: m1.messages := by
  simp only [updateChat, sendMessage, foldl_events] at h
  repeat' split at h
  all_goals
    simp only [Option.bind_eq_bind, Option.bind_eq_some, Option.some.injEq, Prod.mk.injEq] at h
  all_goals first
    | (obtain ⟨rfl, -⟩ := h; first
        | exact List.prefix_refl _
        | exact List.prefix_append _ _)
    | (obtain ⟨_, _, rfl, -⟩ := h; exact List.prefix_append _ _)

/-- The Setup handler leaves the messages. -/
theorem updateSetup_messages {L : Lib} {m m1 : Model L} {msg : Msg} {c : Cmd}
    (h : updateSetup L m msg = some (m1, c)) : m1.messages = m.messages := by
  simp only [updateSetup, moveSetupCursor, saveSetup] at h
  repeat' split at h
  all_goals
    simp only [Option.bind_eq_bind, Option.bind_eq_some, Option.some.injEq, Prod.mk.injEq] at h
  all_goals first
    | (obtain ⟨rfl, -⟩ := h; rfl)
    | (obtain ⟨_, _, _, _, rfl, -⟩ := h; rfl)
    | (obtain ⟨_, _, _, _, _, _, _, _, rfl, -⟩ := h; rfl)

/-- The Projects handler leaves the messages. -/
theorem updateProjects_messages {L : Lib} {m m1 : Model L} {msg : Msg} {c : Cmd}
    (h : updateProjects L m msg = some (m1, c)) : m1.messages = m.messages := by
  simp only [updateProjects, selectProject] at h
  repeat' split at h
  all_goals
    simp only [Option.bind_eq_bind, Option.bind_eq_some, Option.some.injEq, Prod.mk.injEq] at h
  all_goals first
    | (obtain ⟨rfl, -⟩ := h; rfl)
    | (obtain ⟨_, _, rfl, -⟩ := h; rfl)

/-- The Threads handler leaves the messages unless it moves to the Chat screen. -/
theorem updateThreads_messages {L : Lib} {m m1 : Model L} {msg : Msg} {c : Cmd}
    (h : updateThreads L m msg = some (m1, c)) :
    m1.messages = m.messages ∨ m1.view = View.viewChat := by
  simp only [updateThreads, resumeThread] at h
  repeat' split at h
  all_goals
    simp only [Option.bind_eq_bind, Option.bind_eq_some, Option.some.injEq, Prod.mk.injEq] at h
  all_goals first
    | (obtain ⟨rfl, -⟩ := h; first | exact Or.inl rfl | exact Or.inr rfl)
    | (obtain ⟨_, _, rfl, -⟩ := h; exact Or.inr rfl)

/-- Going back leaves the messages. -/
theorem handleEsc_messages {L : Lib} {m m1 : Model L} {c : Cmd}
    (h : handleEsc L m = some (m1, c)) : m1.messages = m.messages := by
  unfold handleEsc at h
  repeat' split at h
  all_goals
    simp only [Option.some.injEq, Prod.mk.injEq] at h
  all_goals (obtain ⟨rfl, -⟩ := h; rfl)

/-- One call of `Update` extends the messages, or moves from Threads to Chat. -/
theorem Update_messages {L : Lib} {m m1 : Model L} {msg : Msg} {c : Cmd}
    (h : Update L m msg = some (m1, c)) :
    m.messages <+: m1.messages ∨ (m.view = View.viewThreads ∧ m1.view = View.viewChat) := by
  have heq : ∀ m2 : Model L, m2.messages = m.messages → m.messages <+: m2.messages := by
    intro m2 h2
    rw [h2]
  have hview : ∀ msg1 : Msg, updateView L m msg1 = some (m1, c) →
      m.messages <+: m1.messages ∨ (m.view = View.viewThreads ∧ m1.view = View.viewChat) := by
    intro msg1 h1
    unfold updateView at h1
    split at h1
    · exact Or.inl (heq m1 (updateSetup_messages h1))
    · exact Or.inl (heq m1 (updateProjects_messages h1))
    · rename_i hv
      rcases updateThreads_messages h1 with h2 | h2
      · exact Or.inl (heq m1 h2)
      · exact Or.inr ⟨hv, h2⟩
    · exact Or.inl (updateChat_messages h1)
  unfold Update at h
  repeat' split at h
  all_goals first
    | exact hview _ h
    | exact Or.inl (heq m1 (handleEsc_messages h))
    | (simp only [Option.some.injEq, Prod.mk.injEq] at h; obtain ⟨rfl, -⟩ := h
       exact Or.inl (List.prefix_refl _))

/-- C19: on the Chat screen `Update` returns a result for every message (but a
`threadStarted` with a nil result, which no command builds), and the messages
before are a prefix of the messages after; on any screen, a call after which
the old messages are not a prefix of the new ones moved from the Threads screen
to the Chat screen. -/
theorem chat_messages_append_only (L : Lib) (m : Model L) (msg : Msg) :
    (m.view = View.viewChat → msg ≠ Msg.threadStarted none →
        ∃ (m1 : Model L) (c : Cmd), Update L m msg = some (m1, c))
    ∧ (∀ (m1 : Model L) (c : Cmd), Update L m msg = some (m1, c) →
        (m.view = View.viewChat → m.messages <+: m1.messages)
        ∧ (¬ (m.messages <+: m1.messages) →
            m.view = View.viewThreads ∧ m1.view = View.viewChat)) := by
  constructor
  · intro hv hmsg
    have hsome : ∀ {α : Type} (o : Option α), o.isSome → ∃ a, o = some a := by
      intro α o ho
      cases o with
      | none => cases ho
      | some a => exact ⟨a, rfl⟩
    suffices hs : (Update L m msg).isSome by
      obtain ⟨⟨m1, c⟩, h⟩ := hsome _ hs
      exact ⟨m1, c, h⟩
    cases msg <;>
      simp only [Update, updateView, hv, updateChat, sendMessage, handleEsc] <;>
      (try (repeat' split)) <;>
      first
        | rfl
        | (rename_i r; cases r with
            | none => exact absurd rfl hmsg
            | some r => rfl)
  · intro m1 c h
    constructor
    · intro hv
      rcases Update_messages h with h1 | h1
      · exact h1
      · rw [hv] at h1
        cases h1.1
    · intro hn
      rcases Update_messages h with h1 | h1
      · exact absurd h1 hn
      · exact h1

/-- C19 at a concrete state: sending "hello" from an empty chat. -/
theorem chat_messages_append_only_witness :
    ∃ (m1 : Model plainLib) (c : Cmd),
      Update plainLib chatTyped (Msg.key "ctrl+s") = some (m1, c)
      ∧ chatTyped.messages <+: m1.messages
      ∧ m1.messages = [{ role := "user", content := "hello" }] :=
  ⟨_, _, rfl,
    ((chat_messages_append_only plainLib chatTyped (Msg.key "ctrl+s")).2 _ _ rfl).1 rfl, rfl⟩

/-! ### C20: messages a screen does not recognise -/

/-- Writing back the element read at an index leaves the setup inputs. -/
theorem SetupInputs.set_get {α : Type} (s : SetupInputs α) (i : Int) (v : α)
    (h : s.get i = some v) : s.set i v = some s := by
  cases s
  unfold SetupInputs.get at h
  unfold SetupInputs.set
  split_ifs at h ⊢ <;> simp_all

/-- An index that can be read can be written. -/
theorem SetupInputs.set_isSome {α : Type} (s : SetupInputs α) (i : Int) (v w : α)
    (h : s.get i = some v) : ∃ s1, s.set i w = some s1 := by
  unfold SetupInputs.get at h
  unfold SetupInputs.set
  split_ifs at h ⊢ <;> simp_all

/-- C20 as stated fails on the Setup screen: a message the screen does not name
is handed to the focused input; with a library whose input reacts to it, the PAT
field changes from "" to "x" and a command comes back. -/
theorem unrecognised_on_setup_changes_model :
    recognised (New pasteLib cfgEmpty).view (Msg.other 0) = false
      ∧ ∃ m1 : Model pasteLib,
          Update pasteLib (New pasteLib cfgEmpty) (Msg.other 0) = some (m1, Cmd.widget 0)
          ∧ pasteLib.inputValue (New pasteLib cfgEmpty).setupInputs.fieldPAT = ""
          ∧ pasteLib.inputValue m1.setupInputs.fieldPAT = "x"
          ∧ Update pasteLib (New pasteLib cfgEmpty) (Msg.other 0)
              ≠ some (New pasteLib cfgEmpty, Cmd.none) := by
  refine ⟨rfl, _, rfl, rfl, rfl, ?_⟩
  intro h
  have h2 := congrArg (fun r => r.map (fun p => pasteLib.inputValue p.1.setupInputs.fieldPAT)) h
  exact absurd h2 (by decide)

/-- C20, amended: for a message the current screen does not recognise, the
Projects and Threads screens return the model unchanged and the nil command; the
Setup screen returns the model with the focused input replaced by the result of
the input's own `Update`, and that widget's command; the Chat screen does the
same with the chat input. When the widget leaves itself as it is and returns
the nil command, the model is unchanged and the command is nil. -/
theorem unrecognised_message (L : Lib) (m : Model L) (msg : Msg)
    (hr : recognised m.view msg = false) :
    (m.view = View.viewProjects ∨ m.view = View.viewThreads →
        Update L m msg = some (m, Cmd.none))
    ∧ (m.view = View.viewSetup → ∀ cur : L.Input, m.setupInputs.get m.setupCursor = some cur →
        ∃ inputs : SetupInputs L.Input,
          m.setupInputs.set m.setupCursor (L.inputUpdate cur msg).1 = some inputs
          ∧ Update L m msg
              = some ({ m with setupInputs := inputs }, (L.inputUpdate cur msg).2))
    ∧ (m.view = View.viewSetup → ∀ cur : L.Input, m.setupInputs.get m.setupCursor = some cur →
        L.inputUpdate cur msg = (cur, Cmd.none) → Update L m msg = some (m, Cmd.none))
    ∧ (m.view = View.viewChat →
        Update L m msg
          = some ({ m with chatInput := (L.areaUpdate m.chatInput msg).1 },
                  (L.areaUpdate m.chatInput msg).2))
    ∧ (m.view = View.viewChat → L.areaUpdate m.chatInput msg = (m.chatInput, Cmd.none) →
        Update L m msg = some (m, Cmd.none)) := by
  have hsetup : m.view = View.viewSetup → ∀ cur : L.Input,
      m.setupInputs.get m.setupCursor = some cur →
      ∀ inputs : SetupInputs L.Input,
        m.setupInputs.set m.setupCursor (L.inputUpdate cur msg).1 = some inputs →
        Update L m msg = some ({ m with setupInputs := inputs }, (L.inputUpdate cur msg).2) := by
    intro hv cur hcur inputs hset
    rw [hv] at hr
    cases msg <;> simp [recognised] at hr <;>
      simp [Update, updateView, hv, updateSetup, hcur, hset]
  have hchat : m.view = View.viewChat →
      Update L m msg
        = some ({ m with chatInput := (L.areaUpdate m.chatInput msg).1 },
                (L.areaUpdate m.chatInput msg).2) := by
    intro hv
    rw [hv] at hr
    cases msg <;> simp [recognised] at hr <;>
      simp [Update, updateView, hv, updateChat]
  refine ⟨?_, ?_, ?_, hchat, ?_⟩
  · intro hv
    rcases hv with hv | hv
    · rw [hv] at hr
      cases msg <;> simp [recognised] at hr <;>
        simp [Update, updateView, hv, updateProjects]
    · rw [hv] at hr
      cases msg <;> simp [recognised] at hr <;>
        simp [Update, updateView, hv, updateThreads]
  · intro hv cur hcur
    obtain ⟨inputs, hset⟩ := SetupInputs.set_isSome m.setupInputs m.setupCursor cur
      (L.inputUpdate cur msg).1 hcur
    exact ⟨inputs, hset, hsetup hv cur hcur inputs hset⟩
  · intro hv cur hcur hign
    have hset : m.setupInputs.set m.setupCursor (L.inputUpdate cur msg).1 = some m.setupInputs := by
      rw [hign]
      exact SetupInputs.set_get _ _ _ hcur
    rw [hsetup hv cur hcur _ hset, hign]
  · intro hv hign
    rw [hchat hv, hign]

/-- C20, amended, at concrete states: `projectSelectedMsg` on the Projects screen,
and the same message on a fresh Setup screen whose input ignores it. -/
theorem unrecognised_message_witness :
    Update plainLib projectsAtOne (Msg.projectSelected (projectNamed "A"))
        = some (projectsAtOne, Cmd.none)
    ∧ Update plainLib (New plainLib cfgEmpty) (Msg.projectSelected (projectNamed "A"))
        = some (New plainLib cfgEmpty, Cmd.none) :=
  ⟨(unrecognised_message plainLib projectsAtOne
      (Msg.projectSelected (projectNamed "A")) rfl).1 (Or.inl rfl),
    (unrecognised_message plainLib (New plainLib cfgEmpty)
      (Msg.projectSelected (projectNamed "A")) rfl).2.2.1 rfl _ rfl rfl⟩

/-! ### C21: the status of a response -/

/-- C21: `checkResponse` returns the nil error exactly for a status in
[200, 300); otherwise it returns a typed error whose type depends on the status
alone (401 authentication, 403 forbidden, 404 not found, 422 validation, 429
rate limit, 500 to 599 server, anything else the generic `PromptQLError`), which
carries the status code and whose message is the string under `message` of the
JSON body, else the string under `error`, else the raw body. A 401 with the body
of the message "x" gives an authentication error with the message "x". -/
theorem checkResponse_by_status (J : JsonLib) (resp : HttpResponse) :
    (checkResponse J resp = none ↔ 200 ≤ resp.statusCode ∧ resp.statusCode < 300)
    ∧ (¬ (200 ≤ resp.statusCode ∧ resp.statusCode < 300) →
        ∃ kind : ErrorKind,
          checkResponse J resp
            = some (SdkError.typed kind
                { message := messageOfBody J resp.body
                  statusCode := resp.statusCode
                  detail := messageOfBody J resp.body })
          ∧ (resp.statusCode = 401 → kind = ErrorKind.authentication)
          ∧ (resp.statusCode = 403 → kind = ErrorKind.forbidden)
          ∧ (resp.statusCode = 404 → kind = ErrorKind.notFound)
          ∧ (resp.statusCode = 422 → kind = ErrorKind.validation)
          ∧ (resp.statusCode = 429 → kind = ErrorKind.rateLimit)
          ∧ (500 ≤ resp.statusCode ∧ resp.statusCode < 600 → kind = ErrorKind.server)
          ∧ (resp.statusCode ≠ 401 → resp.statusCode ≠ 403 → resp.statusCode ≠ 404 →
              resp.statusCode ≠ 422 → resp.statusCode ≠ 429 →
              ¬ (500 ≤ resp.statusCode ∧ resp.statusCode < 600) → kind = ErrorKind.generic))
    ∧ (∀ (parsed : JObj) (msg : String), J.unmarshal resp.body = Except.ok (JVal.obj parsed) →
        asString (mapIndex parsed "message") = some msg → messageOfBody J resp.body = msg)
    ∧ (∀ (parsed : JObj) (msg : String), J.unmarshal resp.body = Except.ok (JVal.obj parsed) →
        asString (mapIndex parsed "message") = none →
        asString (mapIndex parsed "error") = some msg → messageOfBody J resp.body = msg)
    ∧ (∀ parsed : JObj, J.unmarshal resp.body = Except.ok (JVal.obj parsed) →
        asString (mapIndex parsed "message") = none →
        asString (mapIndex parsed "error") = none → messageOfBody J resp.body = resp.body)
    ∧ ((∀ parsed : JObj, J.unmarshal resp.body ≠ Except.ok (JVal.obj parsed)) →
        messageOfBody J resp.body = resp.body)
    ∧ checkResponse errorJson { statusCode := 401, body := errorBody }
        = some (SdkError.typed ErrorKind.authentication
            { message := "x", statusCode := 401, detail := "x" }) := by
  refine ⟨?_, ?_, ?_, ?_, ?_, ?_, rfl⟩
  · unfold checkResponse
    by_cases h : resp.statusCode ≥ 200 ∧ resp.statusCode < 300
    · rw [if_pos h]
      exact ⟨fun _ => ⟨h.1, h.2⟩, fun _ => rfl⟩
    · rw [if_neg h]
      constructor
      · intro hc; cases hc
      · intro hc; exact absurd (And.intro (ge_iff_le.mpr hc.1) hc.2) h
  · intro h
    have h2 : ¬ (resp.statusCode ≥ 200 ∧ resp.statusCode < 300) := fun hc => h ⟨hc.1, hc.2⟩
    unfold checkResponse newErrorForStatus
    simp only [h2, if_false]
    split_ifs with c1 c2 c3 c4 c5 c6
    · exact ⟨_, rfl, fun _ => rfl, by omega, by omega, by omega, by omega, by omega, by omega⟩
    · exact ⟨_, rfl, by omega, fun _ => rfl, by omega, by omega, by omega, by omega, by omega⟩
    · exact ⟨_, rfl, by omega, by omega, fun _ => rfl, by omega, by omega, by omega, by omega⟩
    · exact ⟨_, rfl, by omega, by omega, by omega, fun _ => rfl, by omega, by omega, by omega⟩
    · exact ⟨_, rfl, by omega, by omega, by omega, by omega, fun _ => rfl, by omega, by omega⟩
    · exact ⟨_, rfl, by omega, by omega, by omega, by omega, by omega, fun _ => rfl,
        fun _ _ _ _ _ h6 => absurd ⟨c6.1, c6.2⟩ h6⟩
    · exact ⟨_, rfl, by omega, by omega, by omega, by omega, by omega,
        fun h6 => absurd ⟨h6.1, h6.2⟩ c6, fun _ _ _ _ _ _ => rfl⟩
  · intro parsed msg hp hm
    simp [messageOfBody, hp, hm]
  · intro parsed msg hp hm he
    simp [messageOfBody, hp, hm, he]
  · intro parsed hp hm he
    simp [messageOfBody, hp, hm, he]
  · intro hno
    unfold messageOfBody
    split
    · rename_i parsed hp
      exact absurd hp (hno parsed)
    · rfl

/-! ### C22 and C23: GraphQL errors and the authorization header -/

/-- C22: when the credential is present, the request is sent and the response has
a status in [200, 300) and decodes to an envelope whose `errors` is a non-empty
array of error entries, `graphqlTo` returns no data and the generic
`PromptQLError` whose message is that of the first entry, whatever the envelope
has under `data`. -/
theorem graphql_errors_win (J : JsonLib) (T : Transport) (c : Client)
    (endpoint query : String) (vars : Option JObj) (authType auth : String)
    (resp : HttpResponse) (o : JObj) (xs : List JVal) (first : String) (rest : List String)
    (hauth : authHeader c authType = Except.ok auth)
    (hreq : T.requestFails "POST" endpoint = false)
    (hsend : T.send
        { method := "POST"
          url := endpoint
          headers := [("Content-Type", "application/json"), ("Authorization", auth)]
          body := J.marshal (graphqlRequestJSON query vars) } = Except.ok resp)
    (h2xx : 200 ≤ resp.statusCode ∧ resp.statusCode < 300)
    (hdec : J.decodeFirst resp.body = Except.ok (JVal.obj o))
    (herrs : mapIndex o "errors" = some (JVal.arr xs))
    (hmsgs : xs.mapM errorMessageOfJSON = some (first :: rest)) :
    (graphqlTo J T c endpoint query vars authType).result
        = Except.error (SdkError.typed ErrorKind.generic
            { message := first, statusCode := 0, detail := "" })
    ∧ (∃ (x : JVal) (tail : List JVal), xs = x :: tail ∧ errorMessageOfJSON x = some first) := by
  constructor
  · have hcheck : checkResponse J resp = none := by
      unfold checkResponse
      rw [if_pos ⟨ge_iff_le.mpr h2xx.1, h2xx.2⟩]
    simp only [graphqlTo, hauth, hreq, hsend, hcheck, hdec, graphqlResponseOfJSON, herrs, hmsgs,
      Bool.false_eq_true, if_false]
  · cases xs with
    | nil =>
      rw [List.mapM_nil] at hmsgs
      cases hmsgs
    | cons x tail =>
      refine ⟨x, tail, rfl, ?_⟩
      simp only [List.mapM_cons, Option.bind_eq_bind, Option.pure_def] at hmsgs
      cases hx : errorMessageOfJSON x with
      | none => rw [hx] at hmsgs; simp at hmsgs
      | some s =>
        rw [hx] at hmsgs
        cases ht : List.mapM errorMessageOfJSON tail with
        | none => rw [ht] at hmsgs; simp at hmsgs
        | some ts =>
          rw [ht] at hmsgs
          simp at hmsgs
          rw [hmsgs.1]

/-- C22 at a concrete response: status 200, data present, one error "boom". -/
theorem graphql_errors_win_witness :
    (graphqlTo gqlErrorsJson (fixedTransport { statusCode := 200, body := gqlErrorsBody })
        testClient "https://test.example.com/graphql" "q" none "pat").result
      = Except.error (SdkError.typed ErrorKind.generic
          { message := "boom", statusCode := 0, detail := "" }) :=
  (graphql_errors_win gqlErrorsJson
    (fixedTransport { statusCode := 200, body := gqlErrorsBody }) testClient
    "https://test.example.com/graphql" "q" none "pat" "pat test-pat"
    { statusCode := 200, body := gqlErrorsBody }
    [("data", JVal.obj [("getUserProjects", JVal.arr [])]),
     ("errors", JVal.arr [JVal.obj [("message", JVal.str "boom")]])]
    [JVal.obj [("message", JVal.str "boom")]] "boom" []
    rfl rfl rfl (by decide) rfl rfl rfl).1

/-- C23: `authHeader` is "pat " followed by the PAT for the type "pat" with a
non-empty PAT and "Bearer " followed by the API key for the type "bearer" with a
non-empty key; with the credential empty it is an authentication error, and then
`graphqlTo` and `PostAPI` return that error and hand no request to the
transport, whatever the JSON library and the transport are. -/
theorem authHeader_values (c : Client) :
    (c.pat ≠ "" → authHeader c "pat" = Except.ok ("pat " ++ c.pat))
    ∧ (c.apiKey ≠ "" → authHeader c "bearer" = Except.ok ("Bearer " ++ c.apiKey))
    ∧ (c.pat = "" →
        ∃ base : PromptQLError,
          authHeader c "pat" = Except.error (SdkError.typed ErrorKind.authentication base)
          ∧ ∀ (J : JsonLib) (T : Transport) (target query : String) (vars : Option JObj),
              (graphqlTo J T c target query vars "pat").result
                  = Except.error (SdkError.typed ErrorKind.authentication base)
              ∧ (graphqlTo J T c target query vars "pat").sent = []
              ∧ (PostAPI J T c target vars "pat").result
                  = Except.error (SdkError.typed ErrorKind.authentication base)
              ∧ (PostAPI J T c target vars "pat").sent = [])
    ∧ (c.apiKey = "" →
        ∃ base : PromptQLError,
          authHeader c "bearer" = Except.error (SdkError.typed ErrorKind.authentication base)
          ∧ ∀ (J : JsonLib) (T : Transport) (target query : String) (vars : Option JObj),
              (graphqlTo J T c target query vars "bearer").result
                  = Except.error (SdkError.typed ErrorKind.authentication base)
              ∧ (graphqlTo J T c target query vars "bearer").sent = []
              ∧ (PostAPI J T c target vars "bearer").result
                  = Except.error (SdkError.typed ErrorKind.authentication base)
              ∧ (PostAPI J T c target vars "bearer").sent = []) := by
  refine ⟨?_, ?_, ?_, ?_⟩
  · intro h
    simp [authHeader, h]
  · intro h
    simp [authHeader, h]
  · intro h
    have ha : authHeader c "pat" = Except.error (SdkError.typed ErrorKind.authentication
        { message := "A Personal Access Token (pat) is required for this operation"
          statusCode := 0
          detail := "" }) := by
      simp [authHeader, h]
    refine ⟨_, ha, ?_⟩
    intro J T target query vars
    simp [graphqlTo, PostAPI, ha]
  · intro h
    have ha : authHeader c "bearer" = Except.error (SdkError.typed ErrorKind.authentication
        { message := "An API key is required for this operation"
          statusCode := 0
          detail := "" }) := by
      simp [authHeader, h]
    refine ⟨_, ha, ?_⟩
    intro J T target query vars
    simp [graphqlTo, PostAPI, ha]

/-- C23 at a concrete client: no PAT, a transport that would answer. -/
theorem authHeader_values_witness :
    (graphqlTo errorJson (fixedTransport { statusCode := 200, body := errorBody })
        (NewClient { apiKey := "k" }) "https://test.example.com/graphql" "q" none "pat").sent = []
    ∧ authHeader (NewClient { apiKey := "k" }) "bearer" = Except.ok "Bearer k" :=
  ⟨match (authHeader_values (NewClient { apiKey := "k" })).2.2.1 rfl with
    | ⟨_, _, h⟩ =>
      (h errorJson (fixedTransport { statusCode := 200, body := errorBody })
        "https://test.example.com/graphql" "q" none).2.1,
    (authHeader_values (NewClient { apiKey := "k" })).2.1 (by decide)⟩

/-! ### C24: the credential store -/

/-- Reading the document written for a configuration gives the configuration
back: a field left out because it is empty is read as the empty string. -/
theorem configOfJSON_configJSON (c : Config) :
    configOfJSON (JVal.obj (configJSON c)) = some c := by
  cases c with
  | mk pat apiKey projectID ddnURL timezone =>
    by_cases h1 : apiKey = "" <;> by_cases h2 : projectID = "" <;>
      by_cases h3 : ddnURL = "" <;> by_cases h4 : timezone = "" <;>
      simp [configOfJSON, configJSON, stringField, mapIndex, List.lookup, h1, h2, h3, h4]

/-- C24: for every configuration `c`, when `Save` succeeds the `Load` that
follows succeeds and returns `c`, all five fields included, on a file system
that reads back what was written and with a JSON library that decodes the
document it encoded for `c`. -/
theorem save_load_round_trip (J : JsonLib) (F : FileSys) (d d1 : F.Disk) (c : Config)
    (hjson : J.unmarshal (J.marshalIndent (JVal.obj (configJSON c)))
        = Except.ok (JVal.obj (configJSON c)))
    (hfs : ∀ (d0 d2 : F.Disk) (path data : String),
        F.writeFile d0 path data = Except.ok d2 → F.readFile d2 path = ReadResult.content data)
    (hsave : Save J F d c = Except.ok d1) :
    Load J F d1 = Except.ok c := by
  unfold Save at hsave
  cases hdir : configDir F with
  | error e => rw [hdir] at hsave; cases hsave
  | ok dir =>
    rw [hdir] at hsave
    simp only at hsave
    cases hmk : F.mkdirAll d dir with
    | error e => rw [hmk] at hsave; cases hsave
    | ok d2 =>
      rw [hmk] at hsave
      simp only at hsave
      cases hw : F.writeFile d2 (F.join [dir, "config.json"])
          (J.marshalIndent (JVal.obj (configJSON c))) with
      | error e => rw [hw] at hsave; cases hsave
      | ok d3 =>
        rw [hw] at hsave
        simp only at hsave
        cases hsave
        have hread := hfs _ _ _ _ hw
        simp [Load, configPath, hdir, hread, hjson, configOfJSON_configJSON]

/-- C24 at a concrete configuration: a PAT and a timezone, the three other fields
empty, saved to an empty disk and loaded. -/
theorem save_load_round_trip_witness :
    Save cfgPartialJson listFileSys [] cfgPartial
        = Except.ok [("/home/u/.config/promptql-tui/config.json", "cfg")]
    ∧ Load cfgPartialJson listFileSys [("/home/u/.config/promptql-tui/config.json", "cfg")]
        = Except.ok cfgPartial :=
  ⟨rfl,
    save_load_round_trip cfgPartialJson listFileSys []
      [("/home/u/.config/promptql-tui/config.json", "cfg")] cfgPartial rfl
      (fun d0 d2 path data h => by
        cases h
        simp [listFileSys, List.lookup])
      rfl⟩

/-! ### C25: listing the projects -/

set_option maxRecDepth 8000 in
/-- C25, evaluated where it fails: `ListUserProjects` reads the key
`getUserProjects` of the data and nothing else, so for every data without that
key it returns the error of `decodeJSONField`; on the response of
`TestListUserProjects_Success`, whose data lists the projects under
`ddn_projects`, it returns that error and no project. -/
theorem list_user_projects_reads_other_key :
    (∀ data : JObj, mapIndex data "getUserProjects" = none →
        decodeJSONField (some data) "getUserProjects" userProjectsOfJSON
          = Except.error (SdkError.wrapped "field \"getUserProjects\" not found in response"))
    ∧ mapIndex ddnProjectsData "getUserProjects" = none
    ∧ (ListUserProjects ddnProjectsJson
          (fixedTransport { statusCode := 200, body := ddnProjectsBody }) testClient).result
        = Except.error (SdkError.wrapped "field \"getUserProjects\" not found in response") := by
  refine ⟨?_, rfl, rfl⟩
  intro data h
  simp [decodeJSONField, h]

/-! ### C26: the start state -/

/-- C26: `HasCredentials` holds exactly when the PAT is not empty; `New cfg`
starts on the Projects screen with `loading = true` and a client bound exactly
when it holds, the client being built from the PAT, the API key and the
project identifier; otherwise it starts on the Setup screen with
`loading = false`, no client and the focus index 0. -/
theorem New_starts (L : Lib) (cfg : Config) :
    (cfg.HasCredentials = true ↔ cfg.pat ≠ "")
    ∧ (((New L cfg).view = View.viewProjects ∧ (New L cfg).loading = true
          ∧ (New L cfg).client.isSome) ↔ cfg.HasCredentials = true)
    ∧ (cfg.HasCredentials = true →
        (New L cfg).client
          = some (NewClient { pat := cfg.pat, apiKey := cfg.apiKey, projectID := cfg.projectID }))
    ∧ (cfg.HasCredentials = false →
        (New L cfg).view = View.viewSetup ∧ (New L cfg).loading = false
          ∧ (New L cfg).client = none ∧ (New L cfg).setupCursor = 0) := by
  refine ⟨?_, ?_, ?_, ?_⟩
  · simp [Config.HasCredentials]
  · by_cases h : cfg.HasCredentials = true
    · simp [New, h]
    · simp [New, h]
  · intro h
    simp [New, h]
  · intro h
    simp [New, h]

/-- C26 at two configurations: one with a PAT, one empty. -/
theorem New_starts_witness :
    (New plainLib cfgPAT).view = View.viewProjects ∧ (New plainLib cfgPAT).loading = true
      ∧ (New plainLib cfgPAT).client.isSome
      ∧ (New plainLib cfgEmpty).view = View.viewSetup ∧ (New plainLib cfgEmpty).client = none :=
  have h1 := ((New_starts plainLib cfgPAT).2.1).2 rfl
  have h2 := (New_starts plainLib cfgEmpty).2.2.2 rfl
  ⟨h1.1, h1.2.1, h1.2.2, h2.1, h2.2.2.1⟩

/-! ### C27 and C28: results on the Projects screen -/

/-- C27: on the Projects screen `projectsLoaded` sets the projects to the
payload, `loading` to false and the error to nil, and changes nothing else; on
the Threads screen it returns the model unchanged, with the nil command in both
cases. -/
theorem projects_loaded (L : Lib) (m : Model L) (projects : List UserProject) :
    (m.view = View.viewProjects →
        Update L m (Msg.projectsLoaded projects)
          = some ({ m with projects := projects, loading := false, err := none }, Cmd.none))
    ∧ (m.view = View.viewThreads →
        Update L m (Msg.projectsLoaded projects) = some (m, Cmd.none)) := by
  cases m with
  | mk cfg client view =>
    constructor
    · intro hv
      simp only at hv
      subst hv
      simp only [Update, updateView, updateProjects]
    · intro hv
      simp only at hv
      subst hv
      simp only [Update, updateView, updateThreads]

/-- C27 at concrete states: three projects arrive during the first load, and
arrive again when the Threads screen is showing. -/
theorem projects_loaded_witness :
    Update plainLib (New plainLib cfgPAT) (Msg.projectsLoaded threeProjects)
        = some ({ New plainLib cfgPAT with projects := threeProjects, loading := false, err := none },
                Cmd.none)
    ∧ Update plainLib threadsAtTwo (Msg.projectsLoaded threeProjects)
        = some (threadsAtTwo, Cmd.none) :=
  ⟨(projects_loaded plainLib (New plainLib cfgPAT) threeProjects).1 rfl,
    (projects_loaded plainLib threadsAtTwo threeProjects).2 rfl⟩

/-- C28: on the Projects screen `lookupResult` with the result `r` sets
`buildFQDN` and the project identifier of the credentials from `r`, sets the
identifier and the build FQDN of the selected project from `r` when there is
one (its name as before), moves to the Threads screen with `loading = true` and
returns the command that loads the threads; the projects and the cursor are as
before. -/
theorem lookup_result (L : Lib) (m : Model L) (r : LookupProjectResult)
    (hv : m.view = View.viewProjects) :
    ∃ m1 : Model L,
      Update L m (Msg.lookupResult (some r))
          = some (m1, Cmd.batch [Cmd.spinnerTick, Cmd.loadThreads])
      ∧ m1 = { m with
               buildFQDN := r.buildFQDN
               selectedProject :=
                 m.selectedProject.map
                   (fun p => { p with projectID := r.projectID, buildFQDN := r.buildFQDN })
               cfg := { m.cfg with projectID := r.projectID }
               view := View.viewThreads
               loading := true }
      ∧ m1.buildFQDN = r.buildFQDN
      ∧ m1.cfg.projectID = r.projectID
      ∧ (∀ p : UserProject, m.selectedProject = some p →
          ∃ p1 : UserProject, m1.selectedProject = some p1
            ∧ p1.projectID = r.projectID ∧ p1.buildFQDN = r.buildFQDN
            ∧ p1.name = p.name ∧ p1.ddnProjectID = p.ddnProjectID)
      ∧ (m.selectedProject = none → m1.selectedProject = none)
      ∧ m1.view = View.viewThreads ∧ m1.loading = true
      ∧ m1.projects = m.projects ∧ m1.projectCursor = m.projectCursor := by
  cases m with
  | mk cfg client view =>
    simp only at hv
    subst hv
    refine ⟨_, ?_, rfl, rfl, rfl, ?_, ?_, rfl, rfl, rfl, rfl⟩
    · simp only [Update, updateView, updateProjects, Option.bind_eq_bind, Option.some_bind]
    · intro p hp
      simp only at hp
      simp [hp]
    · intro hp
      simp only at hp
      simp [hp]

/-- C28 at a concrete state: the lookup of the selected project "A" returns. -/
theorem lookup_result_witness :
    ∃ m1 : Model plainLib,
      Update plainLib projectsLookingUp (Msg.lookupResult (some lookupOfA))
          = some (m1, Cmd.batch [Cmd.spinnerTick, Cmd.loadThreads])
      ∧ m1.view = View.viewThreads ∧ m1.cfg.projectID = "p-1"
      ∧ m1.selectedProject = some { projectNamed "A" with projectID := "p-1" } :=
  match lookup_result plainLib projectsLookingUp lookupOfA rfl with
  | ⟨m1, h, heq, _, hcfg, _, _, hview, _, _, _⟩ =>
    ⟨m1, h, hview, hcfg, by rw [heq]; rfl⟩

/-! ### C29: the window of the Projects view -/

/-- With the cursor inside a non-empty list, the window never needs the final
clamp of `viewProjects`. -/
theorem projectsWindow_eq (height : Int) (n : Nat) (cursor : Int)
    (hn : 0 < n) (h1 : cursor < (n : Int)) :
    projectsWindow height n cursor
      = { maxVisible := min (n : Int) (max 3 (height - 6))
          scrollOffset :=
            if cursor ≥ min (n : Int) (max 3 (height - 6)) then
              cursor - min (n : Int) (max 3 (height - 6)) + 1
            else 0
          stop :=
            (if cursor ≥ min (n : Int) (max 3 (height - 6)) then
              cursor - min (n : Int) (max 3 (height - 6)) + 1
            else 0) + min (n : Int) (max 3 (height - 6)) } := by
  have hmv : (if (if height - 6 < 3 then (3 : Int) else height - 6) > (n : Int) then (n : Int)
      else (if height - 6 < 3 then (3 : Int) else height - 6))
      = min (n : Int) (max 3 (height - 6)) := by
    split <;> split at * <;> omega
  unfold projectsWindow
  simp only [hmv]
  generalize min (n : Int) (max 3 (height - 6)) = mv at *
  have hstop : ¬ ((if cursor ≥ mv then cursor - mv + 1 else 0) + mv > (n : Int)) := by
    split <;> omega
  rw [if_neg hstop]

/-- C29: when `viewProjects` renders a non-empty list of `n` projects with the
cursor in [0, n), its window has `maxVisible = min(n, max(3, height-6))`,
`0 ≤ offset ≤ n - maxVisible`, `end = offset + maxVisible ≤ n` and
`offset ≤ cursor < end`; the line "more below" is written exactly when
`end < n` and shows `n - end`. -/
theorem view_projects_window (L : Lib) (m : Model L)
    (hl : m.loading = false) (he : m.err = none) (hn : 0 < m.projects.length)
    (h0 : 0 ≤ m.projectCursor) (h1 : m.projectCursor < (m.projects.length : Int)) :
    ∃ w : Window,
      viewProjectsWindow m = some w
      ∧ w = projectsWindow m.height m.projects.length m.projectCursor
      ∧ w.maxVisible = min (m.projects.length : Int) (max 3 (m.height - 6))
      ∧ 0 ≤ w.scrollOffset
      ∧ w.scrollOffset ≤ (m.projects.length : Int) - w.maxVisible
      ∧ w.stop = w.scrollOffset + w.maxVisible
      ∧ w.stop ≤ (m.projects.length : Int)
      ∧ w.scrollOffset ≤ m.projectCursor
      ∧ m.projectCursor < w.stop
      ∧ ((moreBelow m.projects.length w).isSome ↔ w.stop < (m.projects.length : Int))
      ∧ (∀ k : Int, moreBelow m.projects.length w = some k →
          k = (m.projects.length : Int) - w.stop) := by
  have hne : ¬ (m.projects.length = 0) := by omega
  refine ⟨projectsWindow m.height m.projects.length m.projectCursor, ?_, rfl, ?_⟩
  · simp [viewProjectsWindow, hl, he, hne]
  · rw [projectsWindow_eq m.height m.projects.length m.projectCursor hn h1]
    generalize m.projects.length = n at hn h1 hne
    generalize m.projectCursor = c at h0 h1
    generalize hmv : min (n : Int) (max 3 (m.height - 6)) = mv
    have hmv1 : 1 ≤ mv := by omega
    have hmv2 : mv ≤ n := by omega
    have hmore : ∀ w : Window,
        ((moreBelow n w).isSome ↔ w.stop < (n : Int))
        ∧ (∀ k : Int, moreBelow n w = some k → k = (n : Int) - w.stop) := by
      intro w
      unfold moreBelow
      by_cases hw : w.stop < (n : Int)
      · simp only [hw, if_true, Option.isSome_some, true_iff, Option.some.injEq]
        exact ⟨trivial, fun k hk => hk.symm⟩
      · simp only [hw, if_false, Option.isSome_none, Bool.false_eq_true, false_iff,
          not_false_eq_true, true_and]
        intro k hk
        cases hk
    refine ⟨rfl, ?_, ?_, rfl, ?_, ?_, ?_, (hmore _).1, (hmore _).2⟩
    · show 0 ≤ (if c ≥ mv then c - mv + 1 else 0)
      split <;> omega
    · show (if c ≥ mv then c - mv + 1 else 0) ≤ (n : Int) - mv
      split <;> omega
    · show (if c ≥ mv then c - mv + 1 else 0) + mv ≤ (n : Int)
      split <;> omega
    · show (if c ≥ mv then c - mv + 1 else 0) ≤ c
      split <;> omega
    · show c < (if c ≥ mv then c - mv + 1 else 0) + mv
      split <;> omega

/-- C29 at a concrete state: ten projects, ten lines, cursor on the eighth; the
window is [4, 8) and two projects are below it. -/
theorem view_projects_window_witness :
    ∃ w : Window,
      viewProjectsWindow projectsTall = some w
      ∧ w = { maxVisible := 4, scrollOffset := 4, stop := 8 }
      ∧ w.scrollOffset ≤ projectsTall.projectCursor ∧ projectsTall.projectCursor < w.stop
      ∧ moreBelow 10 w = some 2 :=
  match view_projects_window plainLib projectsTall rfl rfl (by decide) (by decide) (by decide) with
  | ⟨w, hw, heq, _, _, _, _, _, hlo, hhi, _, _⟩ =>
    ⟨w, hw, heq.trans (by decide), hlo, hhi, by rw [heq]; decide⟩

/-! ### C30: the two event handlers of the Chat screen -/

/-- C30: on the Chat screen, for the same list of thread events, the handlers of
`threadStarted` and `eventsLoaded` append messages with the same contents in the
same order; every message `threadStarted` appends has role assistant, while
`eventsLoaded` gives role user exactly to the events `isUserEvent` accepts. An
event whose content is its `user_message.text` is appended with that text and
role assistant by the first and role user by the second. -/
theorem started_vs_loaded (L : Lib) (m : Model L) (r : StartThreadResult)
    (hv : m.view = View.viewChat) :
    ∃ m1 m2 : Model L,
      Update L m (Msg.threadStarted (some r)) = some (m1, Cmd.none)
      ∧ Update L m (Msg.eventsLoaded r.threadEvents) = some (m2, Cmd.none)
      ∧ m1.messages = m.messages ++ eventMessages (fun _ => "assistant") r.threadEvents
      ∧ m2.messages = m.messages ++ eventMessages roleOfEvent r.threadEvents
      ∧ m1.messages.map ChatMessage.content = m2.messages.map ChatMessage.content
      ∧ (∀ msg ∈ eventMessages (fun _ => "assistant") r.threadEvents, msg.role = "assistant")
      ∧ (∀ evt : ThreadEvent, roleOfEvent evt = "user" ↔ isUserEvent evt = true)
      ∧ (∀ (d : JObj) (s : String), textOf d "assistant_message" = none →
          textOf d "user_message" = some s → s ≠ "" →
          eventMessages (fun _ => "assistant") [eventOf d] = [{ role := "assistant", content := s }]
          ∧ eventMessages roleOfEvent [eventOf d] = [{ role := "user", content := s }]) := by
  have hcontent : ∀ (f g : ThreadEvent → String) (es : List ThreadEvent),
      (eventMessages f es).map ChatMessage.content = (eventMessages g es).map ChatMessage.content := by
    intro f g es
    induction es with
    | nil => rfl
    | cons e rest ih =>
      unfold eventMessages at ih ⊢
      simp only [List.filterMap_cons]
      by_cases hc : extractEventContent e = ""
      · simp only [hc, if_true]
        exact ih
      · simp only [hc, if_false, List.map_cons]
        rw [ih]
  have hf1 := foldl_events (fun _ => "assistant") r.threadEvents m.messages
  have hf2 := foldl_events roleOfEvent r.threadEvents m.messages
  unfold roleOfEvent at hf2
  refine ⟨{ m with
            loading := false
            err := none
            threadID := r.threadID
            activeThread := some (threadOfStart r)
            messages := m.messages ++ eventMessages (fun _ => "assistant") r.threadEvents },
          { m with
            loading := false
            err := none
            messages := m.messages ++ eventMessages roleOfEvent r.threadEvents },
          ?_, ?_, rfl, rfl, ?_, ?_, ?_, ?_⟩
  · cases m with
    | mk cfg client view =>
      simp only at hv hf1
      subst hv
      simp only [Update, updateView, updateChat, Option.bind_eq_bind, Option.some_bind, hf1]
  · cases m with
    | mk cfg client view =>
      simp only at hv hf2
      subst hv
      simp only [Update, updateView, updateChat, hf2]
      rfl
  · simp only [List.map_append]
    rw [hcontent (fun _ => "assistant") roleOfEvent]
  · intro msg hmsg
    unfold eventMessages at hmsg
    simp only [List.mem_filterMap] at hmsg
    obtain ⟨evt, _, hevt⟩ := hmsg
    split at hevt
    · cases hevt
    · cases hevt; rfl
  · intro evt
    unfold roleOfEvent
    cases isUserEvent evt <;> simp
  · intro d s ha hu hs
    have hc : extractEventContent (eventOf d) = s := by
      simp [extractEventContent, eventOf, ha, hu]
    have huser : isUserEvent (eventOf d) = true := by
      rw [isUserEvent_iff]
      refine ⟨d, rfl, Or.inl ?_⟩
      unfold textOf at hu
      cases hk : mapIndex d "user_message" with
      | none => rw [hk] at hu; simp [asObject] at hu
      | some v => rfl
    simp [eventMessages, hc, hs, roleOfEvent, huser]

/-- C30 at a concrete state: the start result returns the question and the
answer; the question is appended as assistant by `threadStarted` and as user by
`eventsLoaded`. -/
theorem started_vs_loaded_witness :
    ∃ m1 m2 : Model plainLib,
      Update plainLib chatIdle (Msg.threadStarted (some startedQA)) = some (m1, Cmd.none)
      ∧ Update plainLib chatIdle (Msg.eventsLoaded startedQA.threadEvents) = some (m2, Cmd.none)
      ∧ m1.messages
          = [{ role := "assistant", content := "q" }, { role := "assistant", content := "a" }]
      ∧ m2.messages
          = [{ role := "user", content := "q" }, { role := "assistant", content := "a" }] :=
  match started_vs_loaded plainLib chatIdle startedQA rfl with
  | ⟨m1, m2, h1, h2, hm1, hm2, _⟩ => ⟨m1, m2, h1, h2, hm1.trans rfl, hm2.trans rfl⟩

end PromptQL
